import Mathlib

/-!
Verification development for the Laburen Agent orchestration core
(repository `JerePrograma/laburen-agent`).

The definitions below are a shallow embedding, in Lean 4, of the
TypeScript sources:

* `src/frontend/src/lib/agent.ts` — the agent orchestrator (plan schema,
  robust plan parsing, streaming chunker, credential fast path, tool
  invocation helper, bounded LLM planning loop);
* `src/lib/tools.ts` — the tool registry (zod input schemas and the
  database-backed execute functions);
* `src/lib/session-store.ts` — session persistence (`clampHistory`,
  `saveSession`).

Modelling conventions:

* JSON values are the inductive `JsonValue`; JSON numbers are stored as
  rationals (`ℚ`), which covers every decimal literal that appears in the
  repository.  `JSON.parse` is embedded as `jsonParse`, a fuel-indexed
  recursive-descent parser for standard JSON.
* External collaborators (the LLM provider, the tool side effects seen by
  the orchestrator, the presentation formatter) are oracle functions in an
  `Env` record, so the orchestration theorems quantify over every possible
  behaviour of those collaborators.
* Mutation is made explicit: functions take and return state
  (`TurnState`, the store map, the database record).
* JavaScript strings are modelled as Lean `String`s; indices and lengths
  are in characters rather than UTF-16 code units (all repository string
  literals are in the Basic Multilingual Plane, where the two agree).
-/

namespace Laburen

/-! ## Characters and small scanning utilities -/

/-- Opening curly brace, written via its code point. -/
def braceO : Char := Char.ofNat 123

/-- Closing curly brace, written via its code point. -/
def braceC : Char := Char.ofNat 125

/-- JSON insignificant whitespace (RFC 8259): space, tab, newline, return. -/
def isJsonWs (c : Char) : Bool :=
  c = ' ' || c = '\t' || c = '\n' || c = '\r'

/-- JavaScript `\s` (the whitespace class used by the source regexes and by
`String.prototype.trim`), restricted to the code points that can appear in
this repository's data: ASCII whitespace, vertical tab, form feed,
no-break space and BOM. -/
def isJsWs (c : Char) : Bool :=
  c = ' ' || c = '\t' || c = '\n' || c = '\r' ||
  c = Char.ofNat 11 || c = Char.ofNat 12 ||
  c = Char.ofNat 160 || c = Char.ofNat 65279

/-- JavaScript `\w`: ASCII letters, digits and underscore. -/
def isWordChar (c : Char) : Bool :=
  (('a' ≤ c && c ≤ 'z') || ('A' ≤ c && c ≤ 'Z') || ('0' ≤ c && c ≤ '9') || c = '_')

/-- ASCII decimal digit. -/
def isDigitChar (c : Char) : Bool :=
  '0' ≤ c && c ≤ '9'

/-- Drop the longest suffix of characters satisfying `p`. -/
def dropTrailing (p : Char → Bool) (cs : List Char) : List Char :=
  ((cs.reverse).dropWhile p).reverse

/-- Length of the longest prefix of characters satisfying `p`. -/
def runLen (p : Char → Bool) (cs : List Char) : Nat :=
  (cs.takeWhile p).length

end Laburen

namespace Laburen

/-! ## JSON values

The dynamic values flowing through the agent (LLM output after
`JSON.parse`, tool inputs, tool results) are untyped JavaScript data.  We
embed them as the inductive `JsonValue`. -/

/-- A JSON value.  Object fields keep their textual order; as in
JavaScript, a duplicated key is resolved by the *last* binding
(see `getField`). -/
inductive JsonValue where
  | null : JsonValue
  | bool : Bool → JsonValue
  | num : ℚ → JsonValue
  | str : String → JsonValue
  | arr : List JsonValue → JsonValue
  | obj : List (String × JsonValue) → JsonValue

instance : Inhabited JsonValue := ⟨.null⟩

/-- Last binding of key `k` in an association list (JavaScript object
semantics: later duplicate keys overwrite earlier ones). -/
def lookupLast (k : String) : List (String × JsonValue) → Option JsonValue
  | [] => none
  | (k', v) :: rest =>
    match lookupLast k rest with
    | some r => some r
    | none => if k' = k then some v else none

/-- Property access `v[k]` on a JSON value: defined only for objects,
`none` otherwise (mirrors `undefined` in JavaScript). -/
def getField (v : JsonValue) (k : String) : Option JsonValue :=
  match v with
  | .obj fields => lookupLast k fields
  | _ => none

end Laburen

namespace Laburen

/-! ## A JSON parser (embedding of `JSON.parse`)

`JSON.parse` as invoked by `parsePlan` in `agent.ts`.  The parser is
fuel-indexed (the fuel bounds nesting depth; `jsonParse` supplies more
fuel than any input can consume).  It is strict: no trailing commas, no
comments, full input consumption — exactly the failures that `parsePlan`'s
later recovery steps compensate for. -/

/-- Skip JSON whitespace. -/
def skipWs (cs : List Char) : List Char := cs.dropWhile isJsonWs

/-- Parse a hexadecimal digit (by code point: 0-9, a-f, A-F). -/
def hexVal (c : Char) : Option Nat :=
  let n := c.toNat
  if 48 ≤ n && n ≤ 57 then some (n - 48)
  else if 97 ≤ n && n ≤ 102 then some (n - 87)
  else if 65 ≤ n && n ≤ 70 then some (n - 55)
  else none

/-- Decode a single-character JSON escape. -/
def escChar (e : Char) : Option Char :=
  if e = '"' then some '"'
  else if e = '\\' then some '\\'
  else if e = '/' then some '/'
  else if e = 'b' then some (Char.ofNat 8)
  else if e = 'f' then some (Char.ofNat 12)
  else if e = 'n' then some '\n'
  else if e = 'r' then some '\r'
  else if e = 't' then some '\t'
  else none

/-- Parse the body of a JSON string (after the opening quote), returning
the decoded characters and the remaining input.  Handles the standard
escapes; a `\u` escape is decoded with `Char.ofNat`. -/
def parseJStr : List Char → Option (List Char × List Char)
  | [] => none
  | c :: rest =>
    if c = '"' then some ([], rest)
    else if c = '\\' then
      match rest with
      | [] => none
      | 'u' :: h1 :: h2 :: h3 :: h4 :: rest' =>
        match hexVal h1, hexVal h2, hexVal h3, hexVal h4 with
        | some a, some b, some c', some d =>
          (parseJStr rest').map fun sr =>
            (Char.ofNat (((a * 16 + b) * 16 + c') * 16 + d) :: sr.1, sr.2)
        | _, _, _, _ => none
      | e :: rest' =>
        match escChar e with
        | some ch => (parseJStr rest').map fun sr => (ch :: sr.1, sr.2)
        | none => none
    else (parseJStr rest).map fun sr => (c :: sr.1, sr.2)

/-- Digits to a natural number. -/
def digitsToNat (ds : List Char) : Nat :=
  ds.foldl (fun acc c => acc * 10 + (c.toNat - '0'.toNat)) 0

/-- Parse a JSON number at the head of the input: optional minus, integer
part without leading zeros, optional fraction, optional exponent.
Returns its rational value. -/
def parseJNum (cs : List Char) : Option (ℚ × List Char) :=
  let (neg, cs1) :=
    match cs with
    | '-' :: rest => (true, rest)
    | _ => (false, cs)
  let intDigits := cs1.takeWhile isDigitChar
  let cs2 := cs1.drop intDigits.length
  if intDigits.isEmpty then none
  else if intDigits.length > 1 && intDigits.head? = some '0' then none
  else
    let fracPart : Option (List Char × List Char) :=
      match cs2 with
      | '.' :: rest =>
        let fd := rest.takeWhile isDigitChar
        if fd.isEmpty then none else some (fd, rest.drop fd.length)
      | _ => some ([], cs2)
    match fracPart with
    | none => none
    | some (fracDigits, cs3) =>
      let expPart : Option (Bool × List Char × List Char) :=
        match cs3 with
        | e :: rest =>
          if e = 'e' || e = 'E' then
            let signedTail : Bool × List Char :=
              match rest with
              | '+' :: r => (false, r)
              | '-' :: r => (true, r)
              | _ => (false, rest)
            let ed := signedTail.2.takeWhile isDigitChar
            if ed.isEmpty then none
            else some (signedTail.1, ed, signedTail.2.drop ed.length)
          else some (false, [], cs3)
        | [] => some (false, [], cs3)
      match expPart with
      | none => none
      | some (expNeg, expDigits, cs4) =>
        let mantissa : ℚ :=
          (digitsToNat intDigits : ℚ) +
            (digitsToNat fracDigits : ℚ) / ((10 : ℚ) ^ fracDigits.length)
        let expVal : Nat := digitsToNat expDigits
        let scaled : ℚ :=
          if expNeg then mantissa / ((10 : ℚ) ^ expVal)
          else mantissa * ((10 : ℚ) ^ expVal)
        some ((if neg then -scaled else scaled), cs4)

/-- Check that the input starts with the given keyword and return the rest. -/
def eatKeyword (kw : List Char) (cs : List Char) : Option (List Char) :=
  if cs.take kw.length = kw then some (cs.drop kw.length) else none

mutual

/-- Parse one JSON value (fuel-indexed recursive descent). -/
def parseJVal (fuel : Nat) (cs : List Char) : Option (JsonValue × List Char) :=
  match fuel with
  | 0 => none
  | fuel + 1 =>
    match skipWs cs with
    | [] => none
    | c :: rest =>
      if c = '"' then
        (parseJStr rest).map fun sr => (.str ⟨sr.1⟩, sr.2)
      else if c = braceO then parseJObj fuel rest
      else if c = '[' then parseJArr fuel rest
      else if c = 't' then
        (eatKeyword ['r', 'u', 'e'] rest).map fun r => (.bool true, r)
      else if c = 'f' then
        (eatKeyword ['a', 'l', 's', 'e'] rest).map fun r => (.bool false, r)
      else if c = 'n' then
        (eatKeyword ['u', 'l', 'l'] rest).map fun r => (.null, r)
      else (parseJNum (c :: rest)).map fun qr => (.num qr.1, qr.2)

/-- Parse a JSON object after its opening brace. -/
def parseJObj (fuel : Nat) (cs : List Char) : Option (JsonValue × List Char) :=
  match fuel with
  | 0 => none
  | fuel + 1 =>
    match skipWs cs with
    | [] => none
    | c :: rest =>
      if c = braceC then some (.obj [], rest)
      else (parseJMembers fuel (c :: rest)).map fun fr => (.obj fr.1, fr.2)

/-- Parse one or more `"key": value` members followed by the closing brace
(strict JSON: a comma must be followed by another member, so trailing
commas fail). -/
def parseJMembers (fuel : Nat) (cs : List Char) :
    Option (List (String × JsonValue) × List Char) :=
  match fuel with
  | 0 => none
  | fuel + 1 =>
    match skipWs cs with
    | '"' :: rest =>
      match parseJStr rest with
      | some (k, rem) =>
        match skipWs rem with
        | ':' :: rem' =>
          match parseJVal fuel rem' with
          | some (v, rem'') =>
            match skipWs rem'' with
            | ',' :: rem3 =>
              (parseJMembers fuel rem3).map fun fr => ((⟨k⟩, v) :: fr.1, fr.2)
            | d :: remD =>
              if d = braceC then some ([(⟨k⟩, v)], remD) else none
            | [] => none
          | none => none
        | _ => none
      | none => none
    | _ => none

/-- Parse a JSON array after its opening bracket. -/
def parseJArr (fuel : Nat) (cs : List Char) : Option (JsonValue × List Char) :=
  match fuel with
  | 0 => none
  | fuel + 1 =>
    match skipWs cs with
    | [] => none
    | c :: rest =>
      if c = ']' then some (.arr [], rest)
      else (parseJElems fuel (c :: rest)).map fun vr => (.arr vr.1, vr.2)

/-- Parse one or more array elements followed by the closing bracket. -/
def parseJElems (fuel : Nat) (cs : List Char) :
    Option (List JsonValue × List Char) :=
  match fuel with
  | 0 => none
  | fuel + 1 =>
    match parseJVal fuel cs with
    | some (v, rem) =>
      match skipWs rem with
      | ',' :: rem' =>
        (parseJElems fuel rem').map fun vr => (v :: vr.1, vr.2)
      | ']' :: remD => some ([v], remD)
      | _ => none
    | none => none

end

/-- Embedding of `JSON.parse`: parse one value, require full consumption
(modulo trailing whitespace), fail (`none`) otherwise — the JavaScript
exception is modelled by `none`. -/
def jsonParse (s : String) : Option JsonValue :=
  match parseJVal (2 * s.length + 2) s.data with
  | some (v, rest) => if skipWs rest = [] then some v else none
  | none => none

end Laburen

namespace Laburen

/-! ## The Plan contract (`PlanSchema` and `parsePlan` in `agent.ts`)

`PlanSchema` is a zod discriminated union on `action`:

* branch `action = "tool"`: `thought` string defaulting to `""`,
  a required `tool` object whose `name` is one of the registered tool
  names and whose `input` is unconstrained and optional,
  `final_response` either absent or `null`, optional `confidence`;
* branch `action = "respond"`: `thought` as above, a required non-empty
  `final_response` string, `tool` either absent or `null`, optional
  `confidence`.

Unknown keys are stripped (zod default), so validation ignores them. -/

/-- The keys of the `tools` registry in `src/lib/tools.ts`, in declaration
order — `TOOL_NAMES` in `agent.ts`. -/
def TOOL_NAMES : List String :=
  ["verify_passcode", "create_lead", "record_note", "list_notes",
   "delete_note", "list_leads", "schedule_followup", "list_followups",
   "complete_followup", "search_docs"]

/-- The `confidence` enumeration of `PlanSchema`. -/
inductive Confidence where
  | low : Confidence
  | medium : Confidence
  | high : Confidence
deriving DecidableEq, Repr

/-- The `tool` reference inside a plan: a registered name plus the
optional, unconstrained `input` payload. -/
structure ToolRef where
  name : String
  input : Option JsonValue

/-- A validated `Plan` (the type `z.infer<typeof PlanSchema>`): either a
tool call or a direct response. -/
inductive Plan where
  | tool : String → ToolRef → Option Confidence → Plan
  | respond : String → String → Option Confidence → Plan

/-- The thought carried by a plan. -/
def Plan.thought : Plan → String
  | .tool th _ _ => th
  | .respond th _ _ => th

/-- Parse the `thought` field: absent defaults to `""`; anything present
must be a string (`z.string().default("")`). -/
def parseThoughtField (j : JsonValue) : Option String :=
  match getField j "thought" with
  | none => some ""
  | some (.str s) => some s
  | some _ => none

/-- Parse the optional `confidence` field
(`z.enum(["low","medium","high"]).optional()`). -/
def parseConfidenceField (j : JsonValue) : Option (Option Confidence) :=
  match getField j "confidence" with
  | none => some none
  | some (.str s) =>
    if s = "low" then some (some .low)
    else if s = "medium" then some (some .medium)
    else if s = "high" then some (some .high)
    else none
  | some _ => none

/-- Check that a field is absent or `null` (`z.null().optional()`). -/
def absentOrNull (f : Option JsonValue) : Bool :=
  match f with
  | none => true
  | some .null => true
  | some _ => false

/-- Embedding of `PlanSchema.parse`, as an `Option` (a zod failure is
`none`; `parsePlan` only distinguishes success from failure). -/
def validatePlan (j : JsonValue) : Option Plan :=
  match j with
  | .obj _ =>
    match getField j "action" with
    | some (.str a) =>
      if a = "tool" then
        match parseThoughtField j, parseConfidenceField j with
        | some th, some conf =>
          match getField j "tool" with
          | some t =>
            match t with
            | .obj _ =>
              match getField t "name" with
              | some (.str nm) =>
                if nm ∈ TOOL_NAMES then
                  if absentOrNull (getField j "final_response") then
                    some (.tool th ⟨nm, getField t "input"⟩ conf)
                  else none
                else none
              | _ => none
            | _ => none
          | none => none
        | _, _ => none
      else if a = "respond" then
        match parseThoughtField j, parseConfidenceField j with
        | some th, some conf =>
          match getField j "final_response" with
          | some (.str s) =>
            if s.length ≥ 1 then
              if absentOrNull (getField j "tool") then
                some (.respond th s conf)
              else none
            else none
          | _ => none
        | _, _ => none
      else none
    | _ => none
  | _ => none

/-- The `tryParse` closure inside `parsePlan`:
`PlanSchema.parse(JSON.parse(s))`, with any exception mapped to `null`. -/
def tryParsePlan (s : String) : Option Plan :=
  (jsonParse s).bind validatePlan

/-- Index of the first occurrence of `c` (JavaScript `indexOf`). -/
def firstIdx (c : Char) (cs : List Char) : Option Nat :=
  match cs with
  | [] => none
  | d :: rest =>
    if d = c then some 0 else (firstIdx c rest).map (· + 1)

/-- Index of the last occurrence of `c` (JavaScript `lastIndexOf`). -/
def lastIdx (c : Char) (cs : List Char) : Option Nat :=
  match cs with
  | [] => none
  | d :: rest =>
    match lastIdx c rest with
    | some i => some (i + 1)
    | none => if d = c then some 0 else none

/-- The brace-slicing recovery of `parsePlan`: when the text has a first
brace at index `a` and a last closing brace at index `b > a`, the
substring `raw.slice(a, b + 1)`. -/
def sliceBraces (raw : String) : Option String :=
  match firstIdx braceO raw.data, lastIdx braceC raw.data with
  | some a, some b =>
    if b > a then some ⟨(raw.data.drop a).take (b + 1 - a)⟩ else none
  | _, _ => none

/-- Remove commas that are followed (possibly after whitespace) by a
closing brace or bracket. -/
def stripTrailingCommas : List Char → List Char
  | [] => []
  | c :: rest =>
    if c = ',' then
      match (rest.dropWhile isJsWs).head? with
      | some d =>
        if d = braceC || d = ']' then stripTrailingCommas rest
        else c :: stripTrailingCommas rest
      | none => c :: stripTrailingCommas rest
    else c :: stripTrailingCommas rest

/-- Modelled from the spec: the third recovery step of the Plan parser
applies the external `jsonrepair` library (not part of this repository) as
a "best-effort JSON-repair transformation on the raw text (fixes common
malformations: trailing commas, …)". The model repairs trailing commas,
the malformation the specification names first; `none` would model a
repair exception (`jsonrepair` throws on unrepairable input — the model's
repair is total, so the surrounding `try/catch` of the source is the
`Option.bind`). -/
def jsonrepairModel (raw : String) : Option String :=
  some ⟨stripTrailingCommas raw.data⟩

/-- Embedding of `parsePlan` (`agent.ts` lines 144–165): strict parse,
then the first-brace/last-brace slice, then JSON repair; the first success
wins and `none` is returned when everything fails. -/
def parsePlan (raw : String) : Option Plan :=
  match tryParsePlan raw with
  | some p => some p
  | none =>
    match sliceBraces raw with
    | some s =>
      match tryParsePlan s with
      | some p => some p
      | none => (jsonrepairModel raw).bind tryParsePlan
    | none => (jsonrepairModel raw).bind tryParsePlan

end Laburen

namespace Laburen

/-! ## Streaming (`chunkResponse` and `emitStreamingText` in `agent.ts`)

`chunkResponse` splits on `/(\s+)/` keeping the separators (so the pieces
are the maximal runs of whitespace / non-whitespace characters, with empty
strings filtered out), then greedily packs them into chunks of at least 18
characters, pushing any leftover buffer, and falls back to `[text]` when
no chunk was produced. -/

/-- Maximal runs of characters agreeing on `isJsWs` — the result of
`text.split(/(\s+)/).filter(Boolean)`, at the character-list level. -/
def splitRuns : List Char → List (List Char)
  | [] => []
  | c :: cs =>
    match splitRuns cs with
    | [] => [[c]]
    | r :: rs =>
      match r with
      | [] => [c] :: [] :: rs
      | d :: ds => if isJsWs c = isJsWs d then (c :: d :: ds) :: rs else [c] :: (d :: ds) :: rs

/-- The accumulation loop of `chunkResponse`: append each word to the
buffer, flush the buffer as a chunk when it reaches 18 characters, and
push a non-empty leftover buffer at the end. -/
def chunkLoop (buf : String) : List String → List String
  | [] => if buf.length > 0 then [buf] else []
  | w :: ws =>
    let b := buf ++ w
    if b.length ≥ 18 then b :: chunkLoop "" ws else chunkLoop b ws

/-- Embedding of `chunkResponse` (`agent.ts` lines 125–139). -/
def chunkResponse (text : String) : List String :=
  let words := (splitRuns text.data).map (fun r => (⟨r⟩ : String))
  let chunks := chunkLoop "" words
  if chunks.length > 0 then chunks else [text]

/-- An authenticated identity (`{ id: number; name: string }`). -/
structure User where
  id : Int
  name : String
deriving DecidableEq, Repr

/-- The `AgentEvent` union of `agent.ts`.  The `id` fields produced by
`randomUUID()` are modelled as naturals drawn from a fresh-id counter. -/
inductive Event where
  | thought : Nat → String → Event
  | tool : Nat → String → JsonValue → Event
  | toolResult : Nat → String → JsonValue → Option JsonValue → Bool → Option String → Event
  | assistantMessage : Nat → Event
  | token : Nat → String → Event
  | assistantDone : Nat → Event
  | state : Option User → Event
  | error : String → Event

/-- Embedding of `emitStreamingText`: one `assistant_message`, one `token`
per chunk in order, one `assistant_done`, all with the same id (the
`delay(30)` between tokens is timing only and has no observable effect on
the event sequence). -/
def emitStreamingText (id : Nat) (text : String) : List Event :=
  Event.assistantMessage id ::
    ((chunkResponse text).map (Event.token id) ++ [Event.assistantDone id])

/-! Auxiliary lemmas: concatenating the chunks restores the text. -/

theorem data_append (s t : String) : (s ++ t).data = s.data ++ t.data := rfl

theorem length_eq_data (s : String) : s.length = s.data.length := rfl

theorem data_inj {s t : String} (h : s.data = t.data) : s = t := by
  cases s; cases t; exact congrArg String.mk h

theorem splitRuns_join (cs : List Char) : (splitRuns cs).flatten = cs := by
  induction cs with
  | nil => rfl
  | cons c cs ih =>
    rw [splitRuns]
    rcases h : splitRuns cs with _ | ⟨r, rs⟩
    · simp [h] at ih; simp [List.flatten, ih]
    · rcases r with _ | ⟨d, ds⟩
      · rw [h] at ih; simp only [List.flatten] at ih ⊢
        simpa using ih
      · rw [h] at ih; simp only [List.flatten] at ih ⊢
        split <;> simp_all

theorem foldl_append_data (l : List String) (acc : String) :
    (l.foldl (fun r s => r ++ s) acc).data = acc.data ++ (l.map String.data).flatten := by
  induction l generalizing acc with
  | nil => simp
  | cons w ws ih => simp [List.foldl, ih, data_append]

theorem join_data (l : List String) :
    (String.join l).data = (l.map String.data).flatten := by
  simp [String.join, foldl_append_data]

theorem chunkLoop_join (ws : List String) (buf : String) :
    ((chunkLoop buf ws).map String.data).flatten = buf.data ++ (ws.map String.data).flatten := by
  induction ws generalizing buf with
  | nil =>
    rw [chunkLoop]
    split
    · simp
    · next h =>
      have hz : buf.data.length = 0 := by
        have := length_eq_data buf
        omega
      simp [List.eq_nil_of_length_eq_zero hz]
  | cons w ws ih =>
    rw [chunkLoop]
    split
    · simp [ih, data_append]
    · simp [ih, data_append]

/-- Concatenating the chunks of `chunkResponse` yields the original
text, and at least one chunk is produced. -/
theorem chunkResponse_join (text : String) :
    String.join (chunkResponse text) = text ∧ chunkResponse text ≠ [] := by
  constructor
  · apply data_inj
    rw [join_data, chunkResponse]
    split
    · rw [chunkLoop_join]
      have : ((splitRuns text.data).map (fun r => (⟨r⟩ : String))).map String.data
          = splitRuns text.data := by
        rw [List.map_map]
        exact List.map_id'' (fun r => rfl) _
      rw [this, splitRuns_join]
      rfl
    · simp
  · rw [chunkResponse]
    split
    · next h => intro hc; rw [hc] at h; simp at h
    · simp

end Laburen

namespace Laburen

/-! ## Credential fast path (`extractPasscodeIntent` and `stripPunct`)

The two regexes of `agent.ts` lines 204–220 are embedded as explicit
backtracking matchers with JavaScript `exec` semantics: the scan looks for
the leftmost starting position, alternatives are tried in source order,
greedy pieces backtrack from longest to shortest and the lazy capture
grows from shortest to longest.

* `nameRe`: an `/i` word-boundary match of `soy`, `me llamo` or
  `mi nombre es`, then `\s+`, then a lazy capture of 1–60 characters from
  `[A-Za-zÁÉÍÓÚÑáéíóúñ' -]` followed by a punctuation/whitespace/end
  lookahead;
* `passRe`: an `/i` word-boundary match of `passcode`, `código`, `codigo`
  or `clave`, then `\s*`, an optional `es` or `:`, `\s*`, and a greedy
  capture of 3–64 characters from `[A-Za-z0-9-]` ending at a word
  boundary. -/

/-- Letters of the source character classes: ASCII letters plus the
accented Spanish letters listed explicitly in the regexes. -/
def isSpanishLetter (c : Char) : Bool :=
  (('a' ≤ c && c ≤ 'z') || ('A' ≤ c && c ≤ 'Z')) ||
  c = 'Á' || c = 'É' || c = 'Í' || c = 'Ó' || c = 'Ú' || c = 'Ñ' ||
  c = 'á' || c = 'é' || c = 'í' || c = 'ó' || c = 'ú' || c = 'ñ'

/-- Case folding for the `/i` flag over the alphabet the source regexes
use (ASCII plus the accented Spanish capitals). -/
def foldChar (c : Char) : Char :=
  if c = 'Á' then 'á'
  else if c = 'É' then 'é'
  else if c = 'Í' then 'í'
  else if c = 'Ó' then 'ó'
  else if c = 'Ú' then 'ú'
  else if c = 'Ñ' then 'ñ'
  else c.toLower

/-- Case-insensitive literal prefix match; `kw` is given folded. -/
def ciPrefix : List Char → List Char → Option (List Char)
  | [], cs => some cs
  | _ :: _, [] => none
  | k :: ks, c :: cs => if foldChar c = k then ciPrefix ks cs else none

/-- Backtracking helper: try `f n`, `f (n-1)`, …, `f 1` (greedy `+`). -/
def tryDown (f : Nat → Option α) : Nat → Option α
  | 0 => none
  | n + 1 => (f (n + 1)).orElse fun _ => tryDown f n

/-- Backtracking helper: try `f n`, …, `f 1`, `f 0` (greedy `*`). -/
def tryDownTo0 (f : Nat → Option α) : Nat → Option α
  | 0 => f 0
  | n + 1 => (f (n + 1)).orElse fun _ => tryDownTo0 f n

/-- Backtracking helper: try `f lo`, `f (lo+1)`, … (`count` attempts) —
lazy quantifier order. -/
def tryUp (f : Nat → Option α) (lo : Nat) : Nat → Option α
  | 0 => none
  | n + 1 => (f lo).orElse fun _ => tryUp f (lo + 1) n

/-- The capture class of `nameRe`: `[A-Za-zÁÉÍÓÚÑáéíóúñ' -]`. -/
def nameClassChar (c : Char) : Bool :=
  isSpanishLetter c || c = '\'' || c = ' ' || c = '-'

/-- The lookahead punctuation of `nameRe`: `[,.;:!?)]`. -/
def namePunct (c : Char) : Bool :=
  c = ',' || c = '.' || c = ';' || c = ':' || c = '!' || c = '?' || c = ')'

/-- Lazy capture of `nameRe` at a fixed start: shortest length 1–60 of
name-class characters whose following character (if any) satisfies the
lookahead `(?=[,.;:!?)]|\s|$)`. -/
def nameCapture (tail : List Char) : Option (List Char) :=
  let maxLen := min 60 (runLen nameClassChar tail)
  tryUp
    (fun len =>
      if len ≤ maxLen then
        match (tail.drop len).head? with
        | none => some (tail.take len)
        | some d => if namePunct d || isJsWs d then some (tail.take len) else none
      else none)
    1 60

/-- After a matched keyword: `\s+` (greedy, backtracking) then the lazy
capture. -/
def nameAfterKw (rest : List Char) : Option (List Char) :=
  tryDown (fun n => nameCapture (rest.drop n)) (runLen isJsWs rest)

/-- Leftmost-match scan of `nameRe`: at each position with a preceding
word boundary, try the alternatives `soy`, `me llamo`, `mi nombre es` in
order. -/
def nameScan : Option Char → List Char → Option (List Char)
  | _, [] => none
  | prev, c :: rest =>
    let tryHere : Option (List Char) :=
      if (prev.map isWordChar).getD false then none
      else
        ((ciPrefix "soy".data (c :: rest)).bind nameAfterKw).orElse fun _ =>
          ((ciPrefix "me llamo".data (c :: rest)).bind nameAfterKw).orElse fun _ =>
            (ciPrefix "mi nombre es".data (c :: rest)).bind nameAfterKw
    tryHere.orElse fun _ => nameScan (some c) rest

/-- The capture class of `passRe`: `[A-Za-z0-9-]`. -/
def passClassChar (c : Char) : Bool :=
  (('a' ≤ c && c ≤ 'z') || ('A' ≤ c && c ≤ 'Z') || ('0' ≤ c && c ≤ '9')) || c = '-'

/-- Greedy capture of `passRe` at a fixed start: longest length 64 down to
3 of pass-class characters ending at a word boundary (`\b`). -/
def passCapture (tail : List Char) : Option (List Char) :=
  tryDown
    (fun len =>
      if 3 ≤ len then
        match (tail.take len).getLast? with
        | none => none
        | some last =>
          let nextIsWord := ((tail.drop len).head?.map isWordChar).getD false
          if isWordChar last ≠ nextIsWord then some (tail.take len) else none
      else none)
    (min 64 (runLen passClassChar tail))

/-- After the optional `es`/`:`: `\s*` (greedy) then the capture. -/
def passAfterMid (q : List Char) : Option (List Char) :=
  tryDownTo0 (fun n => passCapture (q.drop n)) (runLen isJsWs q)

/-- The optional `(?:es|:)?` piece, alternatives in order `es`, `:`,
empty. -/
def passMid (p : List Char) : Option (List Char) :=
  ((ciPrefix "es".data p).bind passAfterMid).orElse fun _ =>
    ((ciPrefix ":".data p).bind passAfterMid).orElse fun _ =>
      passAfterMid p

/-- After a matched keyword of `passRe`: `\s*` (greedy) then the optional
middle then the capture. -/
def passAfterKw (rest : List Char) : Option (List Char) :=
  tryDownTo0 (fun n => passMid (rest.drop n)) (runLen isJsWs rest)

/-- Leftmost-match scan of `passRe`: alternatives `passcode`, `código`,
`codigo`, `clave` in order. -/
def passScan : Option Char → List Char → Option (List Char)
  | _, [] => none
  | prev, c :: rest =>
    let tryHere : Option (List Char) :=
      if (prev.map isWordChar).getD false then none
      else
        ((ciPrefix "passcode".data (c :: rest)).bind passAfterKw).orElse fun _ =>
          ((ciPrefix "código".data (c :: rest)).bind passAfterKw).orElse fun _ =>
            ((ciPrefix "codigo".data (c :: rest)).bind passAfterKw).orElse fun _ =>
              (ciPrefix "clave".data (c :: rest)).bind passAfterKw
    tryHere.orElse fun _ => passScan (some c) rest

/-- The allowed-at-the-end class of `stripPunct`:
`[A-Za-zÁÉÍÓÚÑáéíóúñ0-9'() :.,-]`. -/
def stripAllowed (c : Char) : Bool :=
  isSpanishLetter c || isDigitChar c || c = '\'' || c = '(' || c = ')' ||
  c = ' ' || c = ':' || c = '.' || c = ',' || c = '-'

/-- JavaScript `String.prototype.trim`. -/
def jsTrim (s : String) : String :=
  ⟨dropTrailing isJsWs (s.data.dropWhile isJsWs)⟩

/-- Embedding of `stripPunct` (`agent.ts` lines 198–202): remove the
leading run of non-letters and the trailing run of disallowed characters
(the two anchored alternatives of the first `replace`), collapse
whitespace runs to single spaces, then trim. -/
def stripPunct (s : String) : String :=
  let step1 := s.data.dropWhile (fun c => !isSpanishLetter c)
  let step2 := dropTrailing (fun c => !stripAllowed c) step1
  let collapsed :=
    ((splitRuns step2).map
      (fun r => if (r.head?.map isJsWs).getD false then [' '] else r)).flatten
  jsTrim ⟨collapsed⟩

/-- Extracted credentials. -/
structure Creds where
  name : String
  passcode : String
deriving DecidableEq, Repr

/-- Embedding of `extractPasscodeIntent` (`agent.ts` lines 206–220): both
regexes must match; the captured name is cleaned with `stripPunct`, the
passcode trimmed, and empty results reject the match. -/
def extractPasscodeIntent (text : String) : Option Creds :=
  match nameScan none text.data, passScan none text.data with
  | some nm, some pc =>
    let name := stripPunct ⟨nm⟩
    let passcode := jsTrim ⟨pc⟩
    if name = "" || passcode = "" then none else some ⟨name, passcode⟩
  | _, _ => none

end Laburen

namespace Laburen

/-! ## Session store (`src/lib/session-store.ts`)

`clampHistory`, `serialize` and `saveSession`.  The Postgres `session`
table is modelled as a map from id to row; `UPDATE … WHERE id = $1`
touches the row only when it exists.  `saveSession` returns the
(unchanged) in-memory session alongside the new store, making the
no-mutation contract of the source explicit: `serialize` builds a fresh
object and `clampHistory` returns a slice, never mutating
`session.history`. -/

/-- Message roles. -/
inductive Role where
  | user : Role
  | assistant : Role
deriving DecidableEq, Repr

/-- An `AgentMessage`: role plus content. -/
structure Msg where
  role : Role
  content : String
deriving DecidableEq, Repr

/-- An `AgentSession`: id, creation time, transcript, authenticated
identity. -/
structure Session where
  id : String
  createdAt : String
  history : List Msg
  authenticatedUser : Option User
deriving DecidableEq, Repr

/-- Embedding of `clampHistory`: keep the most recent `max` entries
(`history.slice(history.length - max)` drops the oldest first). -/
def clampHistory (history : List Msg) (max : Nat := 120) : List Msg :=
  if history.length > max then history.drop (history.length - max) else history

/-- The serialized payload built by `serialize`. -/
structure SerializedSession where
  id : String
  created_at : String
  authenticated_user : Option User
  history : List Msg
deriving DecidableEq, Repr

/-- Embedding of `serialize`: a fresh record with the clamped history
(the in-memory session is not touched). -/
def serialize (session : Session) : SerializedSession :=
  { id := session.id
    created_at := session.createdAt
    authenticated_user := session.authenticatedUser
    history := clampHistory session.history }

/-- A persisted `session` table row. -/
structure SessionRow where
  createdAt : String
  authenticatedUser : Option User
  history : List Msg
  updatedAt : String
deriving DecidableEq, Repr

/-- Embedding of `saveSession`: serialize, then
`UPDATE session SET authenticated_user = …, history = …, updated_at = now()
WHERE id = $1`.  Returns the in-memory session as left by the call
together with the updated store. -/
def saveSession (session : Session) (store : String → Option SessionRow)
    (now : String) : Session × (String → Option SessionRow) :=
  let s := serialize session
  (session,
   fun k =>
     if k = s.id then
       (store k).map fun row =>
         { row with
             authenticatedUser := s.authenticated_user
             history := s.history
             updatedAt := now }
     else store k)

end Laburen

namespace Laburen

/-! ## Ownership-filtered tools (`delete_note`, `complete_followup`)

From `src/lib/tools.ts`.  The relational rows are explicit records; the
single SQL statement of each tool —
`DELETE FROM note WHERE id = $1 AND user_id = $2 RETURNING …` and
`UPDATE follow_up SET status = 'completed', completed_at = now()
WHERE id = $1 AND user_id = $2 RETURNING …` — becomes a filter/map whose
predicate carries the ownership condition, exactly as the statement's
`WHERE` clause does.  Both executes return structured results and are
total: no exception is thrown for missing or foreign rows. -/

/-- A `note` table row. -/
structure NoteRow where
  id : Int
  userId : Int
  text : String
  createdAt : String
deriving DecidableEq, Repr

/-- A `follow_up` table row. -/
structure FollowUpRow where
  id : Int
  userId : Int
  title : String
  dueAt : Option String
  notes : Option String
  status : String
  createdAt : String
  completedAt : Option String
deriving DecidableEq, Repr

/-- The backing store touched by the two tools. -/
structure DB where
  notes : List NoteRow
  followUps : List FollowUpRow
deriving DecidableEq, Repr

/-- The structured result of `delete_note`. -/
structure DeleteNoteResult where
  success : Bool
  message : String
  deleted : Option NoteRow
deriving DecidableEq, Repr

/-- Embedding of the `delete_note` execute: authorization check, then one
`DELETE … WHERE id = $1 AND user_id = $2 RETURNING id, text, created_at`;
zero affected rows yields a structured failure. -/
def delete_note (auth : Option User) (noteId : Int) (db : DB) :
    DB × DeleteNoteResult :=
  match auth with
  | none => (db, ⟨false, "No autenticado", none⟩)
  | some u =>
    let matched := db.notes.filter fun n => n.id == noteId && n.userId == u.id
    match matched with
    | [] => (db, ⟨false, "No se encontró una nota con ese ID", none⟩)
    | row :: _ =>
      let rid := row.id
      ({ db with notes := db.notes.filter fun n => !(n.id == noteId && n.userId == u.id) },
       ⟨true, s!"Nota {rid} eliminada", some row⟩)

/-- The structured result of `complete_followup`. -/
structure CompleteFollowUpResult where
  success : Bool
  message : String
  followUp : Option FollowUpRow
deriving DecidableEq, Repr

/-- Embedding of the `complete_followup` execute: authorization check,
then one `UPDATE follow_up SET status = 'completed', completed_at = now()
WHERE id = $1 AND user_id = $2 RETURNING …`; zero affected rows yields a
structured failure. -/
def complete_followup (auth : Option User) (followUpId : Int) (now : String)
    (db : DB) : DB × CompleteFollowUpResult :=
  match auth with
  | none => (db, ⟨false, "No autenticado", none⟩)
  | some u =>
    let matched := db.followUps.filter fun f => f.id == followUpId && f.userId == u.id
    match matched with
    | [] => (db, ⟨false, "No se encontró un follow-up con ese ID", none⟩)
    | row :: _ =>
      let updatedRow := { row with status := "completed", completedAt := some now }
      let rid := row.id
      ({ db with
           followUps := db.followUps.map fun f =>
             if f.id == followUpId && f.userId == u.id then
               { f with status := "completed", completedAt := some now }
             else f },
       ⟨true, s!"Follow-up {rid} completado", some updatedRow⟩)

end Laburen

namespace Laburen

/-! ## Tool input schemas (the zod schemas of `src/lib/tools.ts`)

Each schema is a function from the raw payload to `Except` — `.ok` carries
the parsed output object (unknown keys stripped, coercions applied),
`.error` a descriptive message (the exact wording of zod's aggregated
messages is abbreviated; no property below depends on the message text).
`z.coerce.number()` applies JavaScript `Number(…)` before validating. -/

/-- Permissive JavaScript decimal literal (`Number("…")` accepts `.5`,
`5.`, `+1`, exponents); hexadecimal/binary literals and `Infinity` do not
occur in this system's data and are not modelled (they would coerce to a
value z's finiteness/int checks reject anyway). -/
def parseJsDecimal (cs : List Char) : Option ℚ :=
  let (neg, cs1) :=
    match cs with
    | '+' :: rest => (false, rest)
    | '-' :: rest => (true, rest)
    | _ => (false, cs)
  let ip := cs1.takeWhile isDigitChar
  let cs2 := cs1.drop ip.length
  let (fp, cs3) :=
    match cs2 with
    | '.' :: rest => (rest.takeWhile isDigitChar, rest.drop (rest.takeWhile isDigitChar).length)
    | _ => ([], cs2)
  if ip.isEmpty && fp.isEmpty then none
  else
    let expPart : Option (Bool × List Char × List Char) :=
      match cs3 with
      | e :: rest =>
        if e = 'e' || e = 'E' then
          let signedTail : Bool × List Char :=
            match rest with
            | '+' :: r => (false, r)
            | '-' :: r => (true, r)
            | _ => (false, rest)
          let ed := signedTail.2.takeWhile isDigitChar
          if ed.isEmpty then none
          else some (signedTail.1, ed, signedTail.2.drop ed.length)
        else some (false, [], cs3)
      | [] => some (false, [], cs3)
    match expPart with
    | none => none
    | some (expNeg, expDigits, cs4) =>
      if cs4.isEmpty then
        let mantissa : ℚ :=
          (digitsToNat ip : ℚ) + (digitsToNat fp : ℚ) / ((10 : ℚ) ^ fp.length)
        let expVal : Nat := digitsToNat expDigits
        let scaled : ℚ :=
          if expNeg then mantissa / ((10 : ℚ) ^ expVal)
          else mantissa * ((10 : ℚ) ^ expVal)
        some (if neg then -scaled else scaled)
      else none

/-- `Number(string)`: trim, empty means `0`, otherwise a full decimal
literal; `none` models `NaN`. -/
def jsStringToNumber (s : String) : Option ℚ :=
  let t := dropTrailing isJsWs (s.data.dropWhile isJsWs)
  if t.isEmpty then some 0 else parseJsDecimal t

/-- JavaScript `Number(value)` on a JSON value (`none` models `NaN`;
arrays coerce through their single element as via `toString`). -/
def jsToNumber : JsonValue → Option ℚ
  | .null => some 0
  | .bool b => some (if b then 1 else 0)
  | .num q => some q
  | .str s => jsStringToNumber s
  | .arr [] => some 0
  | .arr [v] => jsToNumber v
  | .arr (_ :: _ :: _) => none
  | .obj _ => none

/-- ASCII alphanumeric. -/
def isAsciiAlnum (c : Char) : Bool :=
  ('a' ≤ c && c ≤ 'z') || ('A' ≤ c && c ≤ 'Z') || ('0' ≤ c && c ≤ '9')

/-- ASCII letter. -/
def isAsciiAlpha (c : Char) : Bool :=
  ('a' ≤ c && c ≤ 'z') || ('A' ≤ c && c ≤ 'Z')

/-- Two consecutive dots somewhere in the list. -/
def hasDoubleDot : List Char → Bool
  | '.' :: '.' :: _ => true
  | _ :: rest => hasDoubleDot rest
  | [] => false

/-- The zod `z.string().email()` check:
`/^(?!\.)(?!.*\.\.)([A-Za-z0-9_'+\-\.]*)[A-Za-z0-9_+-]@([A-Za-z0-9][A-Za-z0-9\-]*\.)+[A-Za-z]{2,}$/i`
written as a functional recognizer (the character classes exclude `@`, so
the string must contain exactly one `@`). -/
def zodEmailOk (s : String) : Bool :=
  let cs := s.data
  (cs.head? ≠ some '.') && !hasDoubleDot cs &&
    (match cs.splitOn '@' with
     | [localPart, domain] =>
       !localPart.isEmpty &&
         localPart.all (fun c =>
           isAsciiAlnum c || c = '_' || c = '\'' || c = '+' || c = '-' || c = '.') &&
         (match localPart.getLast? with
          | some lc => isAsciiAlnum lc || lc = '_' || lc = '+' || lc = '-'
          | none => false) &&
         (match domain.splitOn '.' with
          | [] => false
          | [_] => false
          | labels =>
            (match labels.getLast? with
             | some tld => tld.length ≥ 2 && tld.all isAsciiAlpha
             | none => false) &&
              (labels.dropLast).all fun lab =>
                match lab with
                | [] => false
                | c :: rest => isAsciiAlnum c && rest.all fun d => isAsciiAlnum d || d = '-')
     | _ => false)

/-- A date-like string accepted by `new Date(string)`, modelled by the
ISO-8601 date shape `YYYY-MM-DD[…]` (the only date strings this system
produces); other strings are treated as an invalid date. -/
def isoDateLike (s : String) : Bool :=
  match s.data with
  | y1 :: y2 :: y3 :: y4 :: '-' :: m1 :: m2 :: '-' :: d1 :: d2 :: rest =>
    isDigitChar y1 && isDigitChar y2 && isDigitChar y3 && isDigitChar y4 &&
      isDigitChar m1 && isDigitChar m2 && isDigitChar d1 && isDigitChar d2 &&
      (rest.isEmpty || rest.head? = some 'T')
  | _ => false

/-- Require the payload to be an object (zod `z.object` rejects anything
else). -/
def asObj (v : JsonValue) : Except String Unit :=
  match v with
  | .obj _ => .ok ()
  | _ => .error "se esperaba un objeto"

/-- Required string field. -/
def zReqString (v : JsonValue) (k : String) : Except String String :=
  match getField v k with
  | some (.str s) => .ok s
  | some _ => .error (k ++ ": se esperaba string")
  | none => .error (k ++ ": requerido")

/-- Required non-empty string field (`z.string().min(1)`). -/
def zReqStringMin1 (v : JsonValue) (k : String) : Except String String := do
  let s ← zReqString v k
  if s.length ≥ 1 then .ok s else .error (k ++ ": mínimo 1 carácter")

/-- Optional string field. -/
def zOptString (v : JsonValue) (k : String) : Except String (Option String) :=
  match getField v k with
  | none => .ok none
  | some (.str s) => .ok (some s)
  | some _ => .error (k ++ ": se esperaba string")

/-- `z.coerce.number().int().positive()` on a required field
(an absent field coerces like `Number(undefined)`, i.e. `NaN`). -/
def zCoerceIntPos (v : JsonValue) (k : String) : Except String ℚ :=
  match getField v k with
  | none => .error (k ++ ": se esperaba número")
  | some x =>
    match jsToNumber x with
    | none => .error (k ++ ": se esperaba número")
    | some q =>
      if q.den ≠ 1 then .error (k ++ ": se esperaba entero")
      else if ¬ 0 < q then .error (k ++ ": debe ser positivo")
      else .ok q

/-- `z.coerce.number().int().positive().max(50).optional()` — the `limit`
fields. -/
def zCoerceLimit (v : JsonValue) (k : String) : Except String (Option ℚ) :=
  match getField v k with
  | none => .ok none
  | some x =>
    match jsToNumber x with
    | none => .error (k ++ ": se esperaba número")
    | some q =>
      if q.den ≠ 1 then .error (k ++ ": se esperaba entero")
      else if ¬ 0 < q then .error (k ++ ": debe ser positivo")
      else if q > 50 then .error (k ++ ": máximo 50")
      else .ok (some q)

/-- `z.coerce.date().optional()` — `new Date(input)`, failing on an
invalid date.  The output keeps the coerced value. -/
def zCoerceDateOpt (v : JsonValue) (k : String) : Except String (Option JsonValue) :=
  match getField v k with
  | none => .ok none
  | some (.num q) => .ok (some (.num q))
  | some (.str s) => if isoDateLike s then .ok (some (.str s)) else .error (k ++ ": fecha inválida")
  | some (.bool b) => .ok (some (.num (if b then 1 else 0)))
  | some .null => .ok (some (.num 0))
  | some _ => .error (k ++ ": fecha inválida")

/-- Append an optional field to a parsed-output object. -/
def optField (k : String) (v : Option JsonValue) : List (String × JsonValue) :=
  match v with
  | none => []
  | some x => [(k, x)]

/-- `verifyPasscodeSchema`. -/
def verifyPasscodeParse (v : JsonValue) : Except String JsonValue := do
  let _ ← asObj v
  let name ← zReqString v "name"
  let passcode ← zReqStringMin1 v "passcode"
  .ok (.obj [("name", .str name), ("passcode", .str passcode)])

/-- `createLeadSchema` (with the zod email format check). -/
def createLeadParse (v : JsonValue) : Except String JsonValue := do
  let _ ← asObj v
  let name ← zReqString v "name"
  let email ← zReqString v "email"
  if zodEmailOk email then
    let source ← zOptString v "source"
    .ok (.obj ([("name", .str name), ("email", .str email)] ++
      optField "source" (source.map .str)))
  else .error "email: formato inválido"

/-- `noteSchema`. -/
def noteParse (v : JsonValue) : Except String JsonValue := do
  let _ ← asObj v
  let text ← zReqStringMin1 v "text"
  .ok (.obj [("text", .str text)])

/-- `listNotesSchema`. -/
def listNotesParse (v : JsonValue) : Except String JsonValue := do
  let _ ← asObj v
  let limit ← zCoerceLimit v "limit"
  .ok (.obj (optField "limit" (limit.map .num)))

/-- `searchSchema`. -/
def searchParse (v : JsonValue) : Except String JsonValue := do
  let _ ← asObj v
  let question ← zReqStringMin1 v "question"
  .ok (.obj [("question", .str question)])

/-- `deleteNoteSchema`. -/
def deleteNoteParse (v : JsonValue) : Except String JsonValue := do
  let _ ← asObj v
  let noteId ← zCoerceIntPos v "noteId"
  .ok (.obj [("noteId", .num noteId)])

/-- `listLeadsSchema`. -/
def listLeadsParse (v : JsonValue) : Except String JsonValue := do
  let _ ← asObj v
  let limit ← zCoerceLimit v "limit"
  .ok (.obj (optField "limit" (limit.map .num)))

/-- `scheduleFollowupSchema`. -/
def scheduleFollowupParse (v : JsonValue) : Except String JsonValue := do
  let _ ← asObj v
  let title ← zReqStringMin1 v "title"
  let dueAt ← zCoerceDateOpt v "dueAt"
  let notes ← zOptString v "notes"
  .ok (.obj ([("title", .str title)] ++ optField "dueAt" dueAt ++
    optField "notes" (notes.map .str)))

/-- `listFollowupsSchema`. -/
def listFollowupsParse (v : JsonValue) : Except String JsonValue := do
  let _ ← asObj v
  let status ←
    match getField v "status" with
    | none => pure (none : Option String)
    | some (.str s) =>
      if s = "pending" || s = "completed" then pure (some s)
      else Except.error "status: valor inválido"
    | some _ => Except.error "status: valor inválido"
  let limit ← zCoerceLimit v "limit"
  .ok (.obj (optField "status" (status.map .str) ++ optField "limit" (limit.map .num)))

/-- `completeFollowupSchema`. -/
def completeFollowupParse (v : JsonValue) : Except String JsonValue := do
  let _ ← asObj v
  let followUpId ← zCoerceIntPos v "followUpId"
  .ok (.obj [("followUpId", .num followUpId)])

/-- Dispatch `def.schema.parse` by tool name (only invoked for registered
names). -/
def schemaParse (name : String) (v : JsonValue) : Except String JsonValue :=
  if name = "verify_passcode" then verifyPasscodeParse v
  else if name = "create_lead" then createLeadParse v
  else if name = "record_note" then noteParse v
  else if name = "list_notes" then listNotesParse v
  else if name = "delete_note" then deleteNoteParse v
  else if name = "list_leads" then listLeadsParse v
  else if name = "schedule_followup" then scheduleFollowupParse v
  else if name = "list_followups" then listFollowupsParse v
  else if name = "complete_followup" then completeFollowupParse v
  else if name = "search_docs" then searchParse v
  else .error "tool sin schema"

end Laburen

namespace Laburen

/-! ## JSON serialization (for the history bookkeeping entries)

`invokeTool` records `TOOL_CALL`/`TOOL_RESULT` history entries containing
`JSON.stringify(…)` of the parsed input and the result.  The serializer
below is used only to build those strings; non-integer numbers are
rendered through `ℚ`'s representation (no claim depends on number
formatting). -/

/-- Escape one character for a JSON string literal. -/
def quoteJsonChar (c : Char) : List Char :=
  if c = '"' then ['\\', '"']
  else if c = '\\' then ['\\', '\\']
  else if c = '\n' then ['\\', 'n']
  else if c = '\r' then ['\\', 'r']
  else if c = '\t' then ['\\', 't']
  else [c]

/-- Quote a string as a JSON literal. -/
def quoteJson (s : String) : String :=
  ⟨'"' :: (s.data.map quoteJsonChar).flatten ++ ['"']⟩

/-- Render a rational: integers exactly, other values via `ℚ`'s notation. -/
def qToString (q : ℚ) : String :=
  if q.den = 1 then toString q.num else toString q

mutual

/-- Serialize a JSON value (`JSON.stringify`). -/
def jsonStringify : JsonValue → String
  | .null => "null"
  | .bool b => if b then "true" else "false"
  | .num q => qToString q
  | .str s => quoteJson s
  | .arr vs => "[" ++ stringifyElems vs ++ "]"
  | .obj fs => braceO.toString ++ stringifyFields fs ++ braceC.toString

/-- Serialize array elements, comma separated. -/
def stringifyElems : List JsonValue → String
  | [] => ""
  | [v] => jsonStringify v
  | v :: rest => jsonStringify v ++ "," ++ stringifyElems rest

/-- Serialize object fields, comma separated. -/
def stringifyFields : List (String × JsonValue) → String
  | [] => ""
  | [(k, v)] => quoteJson k ++ ":" ++ jsonStringify v
  | (k, v) :: rest => quoteJson k ++ ":" ++ jsonStringify v ++ "," ++ stringifyFields rest

end

end Laburen

namespace Laburen

/-! ## The orchestration model (`runAgent` in `agent.ts`)

External collaborators are oracles in `Env`:

* `llm k req` — the outcome of the `k`-th `openrouterChat` call of the
  turn (0-based), given the request actually built; an `Except.error`
  models a thrown transport/provider failure;
* `exec name input` — the outcome of `def.execute(input, { session })`
  for the named tool (an `Except.error` models a thrown exception, an
  `Except.ok` the returned result object).  Quantifying over `exec`
  covers every behaviour of the registry's database-backed executes;
* `fmt outcome` — `buildToolSuccessMessage` (`agent.ts` lines 519–707),
  pure presentation logic mapping a successful outcome to a human
  sentence; its text (locale-dependent through `toLocaleString`) is
  irrelevant to every claim, so it is kept abstract.

`TurnState` carries the in-memory session, a fresh-id counter standing
for `randomUUID()`, the log of LLM requests issued, the log of tool
`execute` invocations (the "spy store" of the specification: a tool can
only touch the database inside `execute`, so an empty log means zero
writes), and the loop-iteration counter.  `saveSession` checkpoints are
external writes of the session row and are not part of this state. -/

/-- One `openrouterChat` request. -/
structure LlmRequest where
  system : String
  messages : List Msg
  temperature : ℚ
  maxTokens : Nat
deriving DecidableEq, Repr

/-- A `ToolCallOutcome` (`agent.ts` lines 389–394), with
`status : Bool` standing for `"success"` (`true`) vs `"error"`. -/
structure ToolCallOutcome where
  name : String
  status : Bool
  parsedInput : JsonValue
  result : JsonValue

/-- The oracle environment. -/
structure Env where
  llm : Nat → LlmRequest → Except String String
  exec : String → JsonValue → Except String JsonValue
  fmt : ToolCallOutcome → String

/-- The observable turn state. -/
structure TurnState where
  session : Session
  nextId : Nat
  llmLog : List LlmRequest
  execLog : List (String × JsonValue)
  iters : Nat

/-- The `BASE_PROMPT` constant of `agent.ts` (lines 95–116). -/
def BASE_PROMPT : String :=
  "Eres Laburen Agent, un agente de producto que ayuda a equipos comerciales.\nDevuelve SOLO un JSON válido, sin texto extra, con: thought, action, tool, final_response.\n1) No respondas al usuario hasta autenticar con verify_passcode.\n2) Antes de leads/notas, confirma autenticación.\n3) Usa search_docs para contexto de /data cuando haga falta.\n4) Si dudas del formato, reintenta devolviendo SOLO JSON válido.\n5) Español neutro, profesional y claro.\n\nTools (usa siempre JSON en tool.input):\n- verify_passcode \x7b \"name\": string, \"passcode\": string \x7d\n- create_lead \x7b \"name\": string, \"email\": string, \"source\"?: string \x7d\n- record_note \x7b \"text\": string \x7d\n- list_notes \x7b \"limit\"?: number \x7d\n- delete_note \x7b \"noteId\": number \x7d\n- list_leads \x7b \"limit\"?: number \x7d\n- schedule_followup \x7b \"title\": string, \"dueAt\"?: string, \"notes\"?: string \x7d\n- list_followups \x7b \"status\"?: \"pending\"|\"completed\", \"limit\"?: number \x7d\n- complete_followup \x7b \"followUpId\": number \x7d\n- search_docs \x7b \"question\": string \x7d\n\nEjemplo válido:\n\x7b\"thought\":\"Voy a verificar passcode\",\"action\":\"tool\",\"tool\":\x7b\"name\":\"verify_passcode\",\"input\":\x7b\"name\":\"Carla\",\"passcode\":\"123456\"\x7d\x7d,\"final_response\":null\x7d"

/-- The stricter system suffix for the parse-retry request. -/
def retryPromptSuffix : String :=
  "\n\nRESPONDE SOLO JSON plano (sin ```)"

/-- The terminal iteration-limit error message. -/
def iterLimitMsg : String :=
  "El agente alcanzó el límite de iteraciones sin responder."

/-- The fallback reply text of `fallbackPlan`, by authentication state. -/
def fallbackRespText (authenticated : Bool) : String :=
  if authenticated then
    "Hubo un problema al interpretar la respuesta del asistente. Podés intentar de nuevo."
  else
    "Acceso por invitación con passcode. ¿Querés registrar un lead, una nota o buscar en la documentación?"

/-- Embedding of `fallbackPlan` (`agent.ts` lines 170–180). -/
def fallbackPlan (reason : String) (authenticated : Bool) : Plan :=
  .respond ("Fallback: " ++ reason) (fallbackRespText authenticated) (some .low)

/-- The contextual sentence appended to the system prompt. -/
def contextualSentence (auth : Option User) : String :=
  match auth with
  | some u =>
    let uid := u.id
    let uname := u.name
    s!"Usuario autenticado: {uid} - {uname}."
  | none =>
    "El usuario no está autenticado. Pedí nombre y passcode y validá con verify_passcode."

/-- Build an `openrouterChat` request (`buildMessages` maps the history
one-to-one, `temperature: 0`). -/
def mkRequest (st : TurnState) (system : String) (maxTokens : Nat) : LlmRequest :=
  { system := system, messages := st.session.history, temperature := 0,
    maxTokens := maxTokens }

/-- Append an assistant bookkeeping entry to the session history. -/
def pushHistory (st : TurnState) (content : String) : TurnState :=
  { st with session :=
      { st.session with history := st.session.history ++ [⟨.assistant, content⟩] } }

/-- Whether a tool result reports `success === false`. -/
def resultIsFailure (v : JsonValue) : Bool :=
  match getField v "success" with
  | some (.bool false) => true
  | _ => false

/-- The `message` field of a result when it is a string; the registry only
ever produces string `message`s, so other shapes fall back to the caller's
default, as `?? "…"` does for the `null`/absent cases. -/
def resultMessage (v : JsonValue) : Option String :=
  match getField v "message" with
  | some (.str s) => some s
  | _ => none

/-- Decode the `user` field of a `verify_passcode` result into an
identity. -/
def decodeUser (v : JsonValue) : Option User :=
  match getField v "user" with
  | some u =>
    match getField u "id", getField u "name" with
    | some (.num q), some (.str nm) => if q.den = 1 then some ⟨q.num, nm⟩ else none
    | _, _ => none
  | none => none

/-- The `rawInput ?? \x7b\x7d` normalization of `invokeTool`: JavaScript `??`
replaces both `undefined` (absent) and `null` by the empty object. -/
def normalizeRawInput (rawInput : Option JsonValue) : JsonValue :=
  match rawInput with
  | none => .obj []
  | some .null => .obj []
  | some v => v

/-- Embedding of the `invokeTool` helper (`agent.ts` lines 396–505):
registry check, schema validation, `tool` event, oracle execution,
`tool_result` event, history bookkeeping, authenticated-user side effect
for a successful `verify_passcode`.  Returns the emitted events, the new
state, and the outcome (`none` exactly in the three no-outcome branches:
unknown tool, invalid input, thrown execute). -/
def invokeTool (env : Env) (st : TurnState) (toolName : Option String)
    (rawInput : Option JsonValue) :
    List Event × TurnState × Option ToolCallOutcome :=
  let shown := match toolName with
    | none => "undefined"
    | some n => n
  match toolName with
  | none =>
    ([Event.error ("Tool desconocida: " ++ shown)],
     pushHistory st ("TOOL_ERROR " ++ shown), none)
  | some n =>
    if n ∈ TOOL_NAMES then
      match schemaParse n (normalizeRawInput rawInput) with
      | .error m =>
        ([Event.error ("Input inválido para " ++ n ++ ": " ++ m)],
         pushHistory st ("TOOL_INPUT_ERROR " ++ n ++ ": " ++ m), none)
      | .ok parsed =>
        let callId := st.nextId
        let st1 : TurnState :=
          { st with nextId := st.nextId + 1, execLog := st.execLog ++ [(n, parsed)] }
        match env.exec n parsed with
        | .error m =>
          ([Event.tool callId n parsed,
            Event.toolResult callId n parsed none false (some m)],
           pushHistory st1 ("TOOL_EXEC_ERROR " ++ n ++ ": " ++ m), none)
        | .ok result =>
          let status := !resultIsFailure result
          let errText :=
            if status then none
            else some ((resultMessage result).getD "Error desconocido")
          let st2 := pushHistory
            (pushHistory st1 ("TOOL_CALL " ++ n ++ ": " ++ jsonStringify parsed))
            ("TOOL_RESULT " ++ n ++ ": " ++ jsonStringify result)
          if n = "verify_passcode" && status then
            let newUser := decodeUser result
            let st3 : TurnState :=
              { st2 with session := { st2.session with authenticatedUser := newUser } }
            ([Event.tool callId n parsed,
              Event.toolResult callId n parsed (some result) status errText,
              Event.state newUser],
             st3, some ⟨n, status, parsed, result⟩)
          else
            ([Event.tool callId n parsed,
              Event.toolResult callId n parsed (some result) status errText],
             st2, some ⟨n, status, parsed, result⟩)
    else
      ([Event.error ("Tool desconocida: " ++ shown)],
       pushHistory st ("TOOL_ERROR " ++ shown), none)

/-- Embedding of `respondWithToolSuccess`: format through
`buildToolSuccessMessage` (the `fmt` oracle), stream, record. -/
def respondToolSuccess (env : Env) (st : TurnState) (o : ToolCallOutcome) :
    List Event × TurnState :=
  let message := env.fmt o
  (emitStreamingText st.nextId message,
   pushHistory { st with nextId := st.nextId + 1 } message)

/-- Embedding of `respondWithToolError`: stream the result's `message`
(or the generic failure sentence), record. -/
def respondToolError (st : TurnState) (o : ToolCallOutcome) :
    List Event × TurnState :=
  let oname := o.name
  let msg := (resultMessage o.result).getD s!"No se pudo ejecutar {oname}."
  (emitStreamingText st.nextId msg,
   pushHistory { st with nextId := st.nextId + 1 } msg)

end Laburen

namespace Laburen

/-! ## The turn: fast paths, LLM loop, assembly

The extractors of sections 2 and 3 of `runAgent`
(`extractCompleteFollowUp`, `extractScheduleFollowUp`, `extractCreateLead`,
`extractRecordNote`, the three list matchers and `extractSearchDocs`) are
pure functions of the user message; the turn model receives their results
in an `OtherIntents` record — no claim under verification depends on their
internals, while the credential extractor is the concrete
`extractPasscodeIntent` above. -/

/-- The (pre-computed) results of the non-credential fast-path extractors
on the user message: a candidate tool input or `none` per fast path, in
the source's priority order. -/
structure OtherIntents where
  completeFollowUp : Option JsonValue
  scheduleFollowUp : Option JsonValue
  createLead : Option JsonValue
  recordNote : Option JsonValue
  listNotes : Option JsonValue
  listLeads : Option JsonValue
  listFollowups : Option JsonValue
  searchDocs : Option JsonValue

/-- A message with no fast-path match. -/
def OtherIntents.noneAll : OtherIntents :=
  ⟨none, none, none, none, none, none, none, none⟩

/-- Sequence two turn steps: a step that terminated the turn
short-circuits, otherwise events accumulate. -/
def andThen (r : List Event × TurnState × Bool)
    (f : TurnState → List Event × TurnState × Bool) :
    List Event × TurnState × Bool :=
  match r with
  | (evs, st, true) => (evs, st, true)
  | (evs, st, false) =>
    match f st with
    | (evs2, st2, t) => (evs ++ evs2, st2, t)

/-- One action/list fast path (the repeated pattern of `runAgent` lines
744–872): invoke on a match; a success or a structured error terminates
the turn with a streamed reply, a missing outcome falls through. -/
def fastPathStep (env : Env) (name : String) (input : Option JsonValue)
    (st : TurnState) : List Event × TurnState × Bool :=
  match input with
  | none => ([], st, false)
  | some inp =>
    match invokeTool env st (some name) (some inp) with
    | (evs, st', some o) =>
      if o.status then
        match respondToolSuccess env st' o with
        | (evs2, st2) => (evs ++ evs2, st2, true)
      else
        match respondToolError st' o with
        | (evs2, st2) => (evs ++ evs2, st2, true)
    | (evs, st', none) => (evs, st', false)

/-- Embedding of the credential fast path (`runAgent` lines 727–741):
only in an unauthenticated session, and only when the extractor matches;
a successful outcome streams the confirmation and terminates, a
structured failure streams the failure message and terminates, a missing
outcome falls through. -/
def authFastPath (env : Env) (userMessage : String) (st : TurnState) :
    List Event × TurnState × Bool :=
  match st.session.authenticatedUser with
  | some _ => ([], st, false)
  | none =>
    match extractPasscodeIntent userMessage with
    | none => ([], st, false)
    | some creds =>
      let credsJson : JsonValue :=
        .obj [("name", .str creds.name), ("passcode", .str creds.passcode)]
      match invokeTool env st (some "verify_passcode") (some credsJson) with
      | (evs, st', some o) =>
        if o.status then
          match respondToolSuccess env st' o with
          | (evs2, st2) => (evs ++ evs2, st2, true)
        else
          match respondToolError st' o with
          | (evs2, st2) => (evs ++ evs2, st2, true)
      | (evs, st', none) => (evs, st', false)

/-- The authenticated-only fast paths of `runAgent` section 2, in source
order. -/
def authedFastPaths (env : Env) (intents : OtherIntents) (st : TurnState) :
    List Event × TurnState × Bool :=
  match st.session.authenticatedUser with
  | none => ([], st, false)
  | some _ =>
    andThen (fastPathStep env "complete_followup" intents.completeFollowUp st) fun st1 =>
      andThen (fastPathStep env "schedule_followup" intents.scheduleFollowUp st1) fun st2 =>
        andThen (fastPathStep env "create_lead" intents.createLead st2) fun st3 =>
          andThen (fastPathStep env "record_note" intents.recordNote st3) fun st4 =>
            andThen (fastPathStep env "list_notes" intents.listNotes st4) fun st5 =>
              andThen (fastPathStep env "list_leads" intents.listLeads st5) fun st6 =>
                fastPathStep env "list_followups" intents.listFollowups st6

/-- All pre-loop phases: credential fast path, authenticated fast paths,
document-search fast path. -/
def phases (env : Env) (userMessage : String) (intents : OtherIntents)
    (st : TurnState) : List Event × TurnState × Bool :=
  andThen (authFastPath env userMessage st) fun st1 =>
    andThen (authedFastPaths env intents st1) fun st2 =>
      fastPathStep env "search_docs" intents.searchDocs st2

/-- Outcome of one LLM-loop iteration. -/
inductive IterOut where
  | done : IterOut
  | thrown : String → IterOut
  | again : IterOut

/-- The tail of one LLM-loop iteration once a plan is fixed (`runAgent`
lines 931–953): emit the thought, then either stream the final response
(`respond`) or invoke the named tool — a present outcome terminates the
turn with a streamed reply, a missing outcome lets the loop continue. -/
def planBranch (env : Env) (st2 : TurnState) (plan : Plan) :
    List Event × TurnState × IterOut :=
  let tid := st2.nextId
  let st3 := { st2 with nextId := tid + 1 }
  let thoughtEv := Event.thought tid plan.thought
  match plan with
  | .respond _ text _ =>
    (thoughtEv :: emitStreamingText st3.nextId text,
     pushHistory { st3 with nextId := st3.nextId + 1 } text, .done)
  | .tool _ tref _ =>
    match invokeTool env st3 (some tref.name) tref.input with
    | (evsT, st4, some o) =>
      if o.status then
        match respondToolSuccess env st4 o with
        | (evs2, st5) => (thoughtEv :: (evsT ++ evs2), st5, .done)
      else
        match respondToolError st4 o with
        | (evs2, st5) => (thoughtEv :: (evsT ++ evs2), st5, .done)
    | (evsT, st4, none) => (thoughtEv :: evsT, st4, .again)

/-- One iteration of the LLM loop (`runAgent` lines 882–954): build the
request; a thrown provider call streams the fallback reply and terminates;
otherwise parse the content, retrying once with the stricter system
instruction (a throw of the retry call propagates — it is outside the
`try`), substitute the deterministic fallback plan if both parses fail,
and continue in `planBranch`. -/
def llmIter (env : Env) (st0 : TurnState) : List Event × TurnState × IterOut :=
  let st := { st0 with iters := st0.iters + 1 }
  let auth := st.session.authenticatedUser.isSome
  let req := mkRequest st (BASE_PROMPT ++ "\n\n" ++ contextualSentence st.session.authenticatedUser) 1024
  let stq := { st with llmLog := st.llmLog ++ [req] }
  match env.llm st.llmLog.length req with
  | .error e =>
    let plan := fallbackPlan e auth
    let tid := stq.nextId
    let text := fallbackRespText auth
    (Event.thought tid plan.thought :: emitStreamingText (tid + 1) text,
     pushHistory { stq with nextId := tid + 2 } text, .done)
  | .ok content =>
    match parsePlan content with
    | some p => planBranch env stq p
    | none =>
      let rreq := mkRequest stq (BASE_PROMPT ++ retryPromptSuffix) 512
      let str := { stq with llmLog := stq.llmLog ++ [rreq] }
      match env.llm stq.llmLog.length rreq with
      | .error e => ([], str, .thrown e)
      | .ok retry =>
        planBranch env str
          ((parsePlan retry).getD (fallbackPlan "Modelo devolvió JSON inválido" auth))

/-- Outcome of the bounded loop. -/
inductive LoopOut where
  | replied : LoopOut
  | thrown : String → LoopOut
  | exhausted : LoopOut

/-- The bounded loop `for (let i = 0; i < maxIters; i++)`. -/
def llmLoop (env : Env) : Nat → TurnState → List Event × TurnState × LoopOut
  | 0, st => ([], st, .exhausted)
  | fuel + 1, st =>
    match llmIter env st with
    | (evs, st', .done) => (evs, st', .replied)
    | (evs, st', .thrown e) => (evs, st', .thrown e)
    | (evs, st', .again) =>
      match llmLoop env fuel st' with
      | (evs2, st2, r) => (evs ++ evs2, st2, r)

/-- The iteration cap (`agent.ts` lines 877–880):
`Math.min(10, Math.max(1, Number(process.env.MAX_TOOL_ITERATIONS ?? "4")))`.
The configuration is the numeric value of `MAX_TOOL_ITERATIONS` (declared
`int().positive()` by `src/lib/env.ts`), `none` when the variable is
unset. -/
def maxIters (cfg : Option Int) : Int :=
  min 10 (max 1 (cfg.getD 4))

/-- Terminal state of a turn. -/
inductive TurnOut where
  | replied : TurnOut
  | errorEnded : TurnOut
  | thrown : String → TurnOut

/-- Embedding of the whole `runAgent` turn: push the user message, run
the fast-path phases, then the bounded LLM loop; an exhausted loop emits
the single terminal iteration-limit `error` event. -/
def runAgentModel (cfg : Option Int) (env : Env) (userMessage : String)
    (intents : OtherIntents) (session0 : Session) (nextId0 : Nat) :
    List Event × TurnState × TurnOut :=
  let st0 : TurnState :=
    { session := { session0 with
        history := session0.history ++ [⟨.user, userMessage⟩] },
      nextId := nextId0, llmLog := [], execLog := [], iters := 0 }
  match phases env userMessage intents st0 with
  | (evs, st, true) => (evs, st, .replied)
  | (evs, st, false) =>
    match llmLoop env (maxIters cfg).toNat st with
    | (evs2, st2, .replied) => (evs ++ evs2, st2, .replied)
    | (evs2, st2, .thrown e) => (evs ++ evs2, st2, .thrown e)
    | (evs2, st2, .exhausted) =>
      (evs ++ evs2 ++ [Event.error iterLimitMsg], st2, .errorEnded)

end Laburen

namespace Laburen

/-! ## Event classification helpers (shared by several theorems) -/

/-- Events that form a user-visible streamed reply. -/
def isReplyEvent : Event → Bool
  | .assistantMessage _ => true
  | .token _ _ => true
  | .assistantDone _ => true
  | _ => false

/-- The terminal iteration-limit error event. -/
def isIterLimitError : Event → Bool
  | .error m => m = iterLimitMsg
  | _ => false

/-- Any `error` event. -/
def isErrorEvent : Event → Bool
  | .error _ => true
  | _ => false

/-- Trace events that are neither part of a reply nor the iteration-limit
error. -/
def benign (e : Event) : Bool :=
  !isReplyEvent e && !isIterLimitError e

/-- Distinguish strings by their first character. -/
theorem ne_of_head {s t : String} {c d : Char} (hc : s.data.head? = some c)
    (hd : t.data.head? = some d) (hcd : c ≠ d) : s ≠ t := by
  intro h
  rw [h, hd] at hc
  exact hcd (Option.some.inj hc).symm

theorem emitStreamingText_reply (id : Nat) (text : String) :
    ∀ e ∈ emitStreamingText id text, isReplyEvent e = true := by
  intro e he
  rw [emitStreamingText, List.mem_cons] at he
  rcases he with rfl | he
  · rfl
  · rcases List.mem_append.1 he with h | h
    · obtain ⟨c, _, rfl⟩ := List.mem_map.1 h
      rfl
    · rw [List.mem_singleton] at h
      subst h
      rfl

end Laburen

namespace Laburen

/-! ## Claims about streaming, plan validation and plan parsing -/

/-- C10: streaming loses no text — concatenating the chunks of
`chunkResponse` in order restores the original string, at least one chunk
is always produced, and `emitStreamingText` emits exactly one
`assistant_message`, then one `token` per chunk in chunk order, then one
`assistant_done`, all carrying the same id. -/
theorem c10_streaming_lossless (text : String) (id : Nat) :
    String.join (chunkResponse text) = text ∧
    chunkResponse text ≠ [] ∧
    emitStreamingText id text =
      Event.assistantMessage id ::
        ((chunkResponse text).map (Event.token id) ++ [Event.assistantDone id]) :=
  ⟨(chunkResponse_join text).1, (chunkResponse_join text).2, rfl⟩

/-- C10 witness: the properties at a concrete text. -/
theorem c10_streaming_lossless_witness :
    String.join (chunkResponse "Nota guardada. ¿Algo más?") = "Nota guardada. ¿Algo más?" ∧
    chunkResponse "Nota guardada. ¿Algo más?" ≠ [] :=
  ⟨(c10_streaming_lossless "Nota guardada. ¿Algo más?" 0).1,
   (c10_streaming_lossless "Nota guardada. ¿Algo más?" 0).2.1⟩

theorem absentOrNull_iff (f : Option JsonValue) :
    absentOrNull f = true ↔ f = none ∨ f = some .null := by
  cases f with
  | none => simp [absentOrNull]
  | some v => cases v <;> simp [absentOrNull]

theorem length_pos_ne_empty {s : String} (h : s.length ≥ 1) : s ≠ "" := by
  intro hs
  rw [hs] at h
  simp [String.length] at h

/-- C3: `parsePlan` validation enforces the tagged union — a payload with
`action:"respond"` is accepted only with a non-empty string
`final_response` and a `tool` that is absent or null; a payload with
`action:"tool"` is accepted only with a registered `tool.name` and a
`final_response` that is absent or null; in particular a payload with
`action:"tool"` and a non-null `final_response`, and a payload with both
`tool` and `final_response` set, are rejected. -/
theorem c3_plan_tagged_union (j : JsonValue) (p : Plan)
    (h : validatePlan j = some p) :
    ((getField j "action" = some (.str "respond") →
      (∃ s, getField j "final_response" = some (.str s) ∧ s ≠ "") ∧
        (getField j "tool" = none ∨ getField j "tool" = some .null)) ∧
     (getField j "action" = some (.str "tool") →
      (∃ t nm, getField j "tool" = some t ∧ getField t "name" = some (.str nm) ∧
        nm ∈ TOOL_NAMES) ∧
        (getField j "final_response" = none ∨
          getField j "final_response" = some .null))) ∧
    validatePlan (.obj [("action", .str "tool"),
      ("tool", .obj [("name", .str "record_note")]),
      ("final_response", .str "hi")]) = none ∧
    validatePlan (.obj [("action", .str "respond"), ("final_response", .str "ok"),
      ("tool", .obj [("name", .str "record_note")])]) = none := by
  refine ⟨⟨?_, ?_⟩, rfl, rfl⟩
  · intro hact
    cases j with
    | obj fields =>
      rw [validatePlan, hact] at h
      dsimp only at h
      rw [if_neg (by decide), if_pos rfl] at h
      rcases hth : parseThoughtField (JsonValue.obj fields) with _ | th
      · rw [hth] at h
        exact absurd h (by simp)
      rw [hth] at h
      rcases hcf : parseConfidenceField (JsonValue.obj fields) with _ | conf
      · rw [hcf] at h
        exact absurd h (by simp)
      rw [hcf] at h
      rcases hfr : getField (JsonValue.obj fields) "final_response" with _ | fr
      · rw [hfr] at h
        exact absurd h (by simp)
      rw [hfr] at h
      cases fr with
      | str s =>
        dsimp only at h
        by_cases hlen : s.length ≥ 1
        · by_cases htool : absentOrNull (getField (JsonValue.obj fields) "tool") = true
          · exact ⟨⟨s, rfl, length_pos_ne_empty hlen⟩, (absentOrNull_iff _).1 htool⟩
          · rw [if_pos hlen, if_neg htool] at h
            exact absurd h (by simp)
        · rw [if_neg hlen] at h
          exact absurd h (by simp)
      | null => exact absurd h (by simp)
      | bool b => exact absurd h (by simp)
      | num q => exact absurd h (by simp)
      | arr vs => exact absurd h (by simp)
      | obj fs => exact absurd h (by simp)
    | null => exact absurd h (by simp [validatePlan])
    | bool b => exact absurd h (by simp [validatePlan])
    | num q => exact absurd h (by simp [validatePlan])
    | str s => exact absurd h (by simp [validatePlan])
    | arr vs => exact absurd h (by simp [validatePlan])
  · intro hact
    cases j with
    | obj fields =>
      rw [validatePlan, hact] at h
      dsimp only at h
      rw [if_pos rfl] at h
      rcases hth : parseThoughtField (JsonValue.obj fields) with _ | th
      · rw [hth] at h
        exact absurd h (by simp)
      rw [hth] at h
      rcases hcf : parseConfidenceField (JsonValue.obj fields) with _ | conf
      · rw [hcf] at h
        exact absurd h (by simp)
      rw [hcf] at h
      rcases htool : getField (JsonValue.obj fields) "tool" with _ | t
      · rw [htool] at h
        exact absurd h (by simp)
      rw [htool] at h
      cases t with
      | obj tfs =>
        dsimp only at h
        rcases hnm : getField (JsonValue.obj tfs) "name" with _ | nmv
        · rw [hnm] at h
          exact absurd h (by simp)
        rw [hnm] at h
        cases nmv with
        | str nm =>
          dsimp only at h
          by_cases hmem : nm ∈ TOOL_NAMES
          · by_cases hfr : absentOrNull (getField (JsonValue.obj fields) "final_response") = true
            · exact ⟨⟨.obj tfs, nm, rfl, hnm, hmem⟩, (absentOrNull_iff _).1 hfr⟩
            · rw [if_pos hmem, if_neg hfr] at h
              exact absurd h (by simp)
          · rw [if_neg hmem] at h
            exact absurd h (by simp)
        | null => exact absurd h (by simp)
        | bool b => exact absurd h (by simp)
        | num q => exact absurd h (by simp)
        | arr vs => exact absurd h (by simp)
        | obj fs => exact absurd h (by simp)
      | null => exact absurd h (by simp)
      | bool b => exact absurd h (by simp)
      | num q => exact absurd h (by simp)
      | str s => exact absurd h (by simp)
      | arr vs => exact absurd h (by simp)
    | null => exact absurd h (by simp [validatePlan])
    | bool b => exact absurd h (by simp [validatePlan])
    | num q => exact absurd h (by simp [validatePlan])
    | str s => exact absurd h (by simp [validatePlan])
    | arr vs => exact absurd h (by simp [validatePlan])

/-- C3 witness: a well-formed respond payload is accepted, and the
theorem's consequences hold for it. -/
theorem c3_plan_tagged_union_witness :
    validatePlan (.obj [("action", .str "respond"), ("final_response", .str "ok")]) =
      some (.respond "" "ok" none) ∧
    (getField (JsonValue.obj [("action", .str "respond"), ("final_response", .str "ok")])
        "action" = some (.str "respond") →
      (∃ s, getField (JsonValue.obj [("action", .str "respond"), ("final_response", .str "ok")])
          "final_response" = some (.str s) ∧ s ≠ "") ∧
        (getField (JsonValue.obj [("action", .str "respond"), ("final_response", .str "ok")])
            "tool" = none ∨
          getField (JsonValue.obj [("action", .str "respond"), ("final_response", .str "ok")])
            "tool" = some .null)) :=
  ⟨rfl,
   (c3_plan_tagged_union
     (.obj [("action", .str "respond"), ("final_response", .str "ok")])
     (.respond "" "ok" none) rfl).1.1⟩

/-- C7: `parsePlan` tries, in order and stopping at the first success,
(1) strict parse+validate of the whole text, (2) the first-`{`-to-last-`}`
slice, (3) the JSON-repair transformation, and returns `none` when all
fail; consequently it recovers a Plan from leading commentary followed by
a valid JSON object, and from JSON with a trailing comma. -/
theorem c7_parse_plan_order :
    (∀ raw p, tryParsePlan raw = some p → parsePlan raw = some p) ∧
    (∀ raw s p, tryParsePlan raw = none → sliceBraces raw = some s →
      tryParsePlan s = some p → parsePlan raw = some p) ∧
    (∀ raw, tryParsePlan raw = none →
      (∀ s, sliceBraces raw = some s → tryParsePlan s = none) →
      parsePlan raw = (jsonrepairModel raw).bind tryParsePlan) ∧
    parsePlan "Here is the plan: \x7b\"thought\":\"t\",\"action\":\"respond\",\"final_response\":\"ok\"\x7d" =
      some (.respond "t" "ok" none) ∧
    parsePlan "\x7b\"thought\":\"t\",\"action\":\"respond\",\"final_response\":\"ok\",\x7d" =
      some (.respond "t" "ok" none) := by
  refine ⟨?_, ?_, ?_, rfl, rfl⟩
  · intro raw p h
    rw [parsePlan, h]
  · intro raw s p h1 h2 h3
    rw [parsePlan, h1, h2]
    dsimp only
    rw [h3]
  · intro raw h1 hs
    rw [parsePlan, h1]
    dsimp only
    rcases hb : sliceBraces raw with _ | s
    · rfl
    · dsimp only
      rw [hs s hb]

/-- C7 witness: the three ordering conjuncts applied at concrete texts. -/
theorem c7_parse_plan_order_witness :
    parsePlan "\x7b\"action\":\"respond\",\"final_response\":\"ok\"\x7d" =
      some (.respond "" "ok" none) ∧
    parsePlan "xy \x7b\"action\":\"respond\",\"final_response\":\"ok\"\x7d" =
      some (.respond "" "ok" none) ∧
    parsePlan "no json" = (jsonrepairModel "no json").bind tryParsePlan :=
  ⟨c7_parse_plan_order.1 "\x7b\"action\":\"respond\",\"final_response\":\"ok\"\x7d"
     (.respond "" "ok" none) rfl,
   c7_parse_plan_order.2.1 "xy \x7b\"action\":\"respond\",\"final_response\":\"ok\"\x7d"
     "\x7b\"action\":\"respond\",\"final_response\":\"ok\"\x7d"
     (.respond "" "ok" none) rfl rfl rfl,
   c7_parse_plan_order.2.2.1 "no json" rfl (fun s hbr => by
     have hz : sliceBraces "no json" = none := rfl
     rw [hz] at hbr
     exact Option.noConfusion hbr)⟩

/-- A successful credential extraction has a non-empty cleaned name and a
non-empty passcode (the `if (!name || !passcode) return null` guard). -/
theorem extractPasscodeIntent_nonempty (t : String) (r : Creds)
    (h : extractPasscodeIntent t = some r) : r.name ≠ "" ∧ r.passcode ≠ "" := by
  rw [extractPasscodeIntent] at h
  rcases hn : nameScan none t.data with _ | nm <;> rw [hn] at h
  · exact absurd h (by simp)
  rcases hp : passScan none t.data with _ | pc <;> rw [hp] at h
  · exact absurd h (by simp)
  dsimp only at h
  by_cases hg : stripPunct ⟨nm⟩ = "" ∨ jsTrim ⟨pc⟩ = ""
  · rw [if_pos (by simpa using hg)] at h
    exact absurd h (by simp)
  · rw [if_neg (by simpa using hg)] at h
    push_neg at hg
    cases h
    exact ⟨hg.1, hg.2⟩

/-- C8 counterexample: the extractor's phrases are Spanish
(`soy`/`me llamo`/`mi nombre es`, `passcode/código/clave … es`), so the
English sentence the claim names does not match at all — the claimed
result `some {name := "Carla", passcode := "123456"}` is refuted. -/
theorem c8_counterexample :
    extractPasscodeIntent "I am Carla, my passcode is 123456" = none := by
  decide

/-- C8 (amended): the extractor returns a pair only when both a
self-introduction phrase and a code-presentation phrase are present
(otherwise `null`, never a partial match), with non-empty cleaned
components; it matches the Spanish sentence
"Soy Carla, mi passcode es 123456" yielding
`{name := "Carla", passcode := "123456"}`, and matches neither
"Soy Carla" alone nor "passcode 123456" alone. -/
theorem c8_extractor_amended (t : String) (r : Creds)
    (h : extractPasscodeIntent t = some r) :
    (nameScan none t.data ≠ none ∧ passScan none t.data ≠ none ∧
      r.name ≠ "" ∧ r.passcode ≠ "") ∧
    extractPasscodeIntent "Soy Carla, mi passcode es 123456" =
      some ⟨"Carla", "123456"⟩ ∧
    extractPasscodeIntent "Soy Carla" = none ∧
    extractPasscodeIntent "passcode 123456" = none := by
  refine ⟨⟨?_, ?_, (extractPasscodeIntent_nonempty t r h).1,
    (extractPasscodeIntent_nonempty t r h).2⟩, by decide, by decide, by decide⟩
  · intro hn
    rw [extractPasscodeIntent, hn] at h
    exact absurd h (by simp)
  · intro hp
    rw [extractPasscodeIntent, hp] at h
    rcases hn : nameScan none t.data with _ | nm <;> rw [hn] at h <;>
      exact absurd h (by simp)

/-- C8 witness: the amended theorem applied to the Spanish sentence. -/
theorem c8_extractor_amended_witness :
    nameScan none ("Soy Carla, mi passcode es 123456" : String).data ≠ none ∧
    ("Carla" : String) ≠ "" :=
  ⟨((c8_extractor_amended "Soy Carla, mi passcode es 123456" ⟨"Carla", "123456"⟩
      (by decide)).1).1,
   (((c8_extractor_amended "Soy Carla, mi passcode es 123456" ⟨"Carla", "123456"⟩
      (by decide)).1).2).2.1⟩

/-- C9: `saveSession` leaves the in-memory session unchanged and writes a
serialized copy whose history is `clampHistory` of the in-memory history:
the most recent `min(length, 120)` entries, i.e. the suffix obtained by
dropping the oldest entries; other sessions' rows are untouched. -/
theorem c9_save_session_truncates (session : Session)
    (store : String → Option SessionRow) (now : String) (row : SessionRow)
    (hrow : store session.id = some row) :
    (saveSession session store now).1 = session ∧
    (saveSession session store now).2 session.id =
      some { row with
               authenticatedUser := session.authenticatedUser
               history := clampHistory session.history
               updatedAt := now } ∧
    (∀ k, k ≠ session.id → (saveSession session store now).2 k = store k) ∧
    (clampHistory session.history).length = min session.history.length 120 ∧
    clampHistory session.history =
      session.history.drop (session.history.length - 120) := by
  refine ⟨rfl, ?_, ?_, ?_, ?_⟩
  · simp [saveSession, serialize, hrow]
  · intro k hk
    simp [saveSession, serialize, hk]
  · rw [clampHistory]
    split
    · rw [List.length_drop]
      omega
    · omega
  · rw [clampHistory]
    split
    · rfl
    · next hlen =>
      have : session.history.length - 120 = 0 := by omega
      rw [this, List.drop_zero]

/-- C9 witness: the properties at a concrete session, store and row. -/
theorem c9_save_session_truncates_witness :
    (saveSession ⟨"c", "t0", [⟨.user, "hola"⟩], none⟩
        (fun k => if k = "c" then some ⟨"t0", none, [], "t0"⟩ else none) "t1").1 =
      ⟨"c", "t0", [⟨.user, "hola"⟩], none⟩ ∧
    (clampHistory [(⟨.user, "hola"⟩ : Msg)]).length = min 1 120 :=
  ⟨(c9_save_session_truncates ⟨"c", "t0", [⟨.user, "hola"⟩], none⟩
      (fun k => if k = "c" then some ⟨"t0", none, [], "t0"⟩ else none) "t1"
      ⟨"t0", none, [], "t0"⟩ rfl).1,
   (c9_save_session_truncates ⟨"c", "t0", [⟨.user, "hola"⟩], none⟩
      (fun k => if k = "c" then some ⟨"t0", none, [], "t0"⟩ else none) "t1"
      ⟨"t0", none, [], "t0"⟩ rfl).2.2.2.1⟩

/-- C5: `delete_note` and `complete_followup` only ever affect rows whose
`user_id` equals the authenticated caller's id (the ownership condition
sits in the single statement's filter): rows of every other user survive
unchanged, nothing is invented, and a nonexistent or foreign id produces
the structured `{success:false, message}` result with the store untouched
(both executes are total — no exception). -/
theorem c5_ownership_filter (u : User) (targetId : Int) (now : String) (db : DB) :
    ((∀ n ∈ db.notes, n.userId ≠ u.id → n ∈ (delete_note (some u) targetId db).1.notes) ∧
     (∀ n ∈ (delete_note (some u) targetId db).1.notes, n ∈ db.notes) ∧
     (delete_note (some u) targetId db).1.followUps = db.followUps ∧
     ((∀ n ∈ db.notes, ¬(n.id = targetId ∧ n.userId = u.id)) →
       (delete_note (some u) targetId db).1 = db ∧
       (delete_note (some u) targetId db).2.success = false ∧
       (delete_note (some u) targetId db).2.message =
         "No se encontró una nota con ese ID")) ∧
    ((∀ f ∈ db.followUps, f.userId ≠ u.id →
       f ∈ (complete_followup (some u) targetId now db).1.followUps) ∧
     (complete_followup (some u) targetId now db).1.notes = db.notes ∧
     (complete_followup (some u) targetId now db).1.followUps.length =
       db.followUps.length ∧
     ((∀ f ∈ db.followUps, ¬(f.id = targetId ∧ f.userId = u.id)) →
       (complete_followup (some u) targetId now db).1 = db ∧
       (complete_followup (some u) targetId now db).2.success = false ∧
       (complete_followup (some u) targetId now db).2.message =
         "No se encontró un follow-up con ese ID")) := by
  constructor
  · rcases hm : db.notes.filter (fun n => n.id == targetId && n.userId == u.id)
        with _ | ⟨row, rest⟩
    · have hd : delete_note (some u) targetId db =
          (db, ⟨false, "No se encontró una nota con ese ID", none⟩) := by
        rw [delete_note, hm]
      rw [hd]
      exact ⟨fun n hn _ => hn, fun n hn => hn, rfl, fun _ => ⟨rfl, rfl, rfl⟩⟩
    · have hd : (delete_note (some u) targetId db).1 =
          { db with
              notes := db.notes.filter (fun n => !(n.id == targetId && n.userId == u.id)) } := by
        rw [delete_note, hm]
      have hrowmem : row ∈ db.notes.filter (fun n => n.id == targetId && n.userId == u.id) := by
        rw [hm]
        exact List.mem_cons_self _ _
      have hrow1 : row ∈ db.notes := (List.mem_filter.1 hrowmem).1
      have hrow2 : (row.id == targetId && row.userId == u.id) = true :=
        (List.mem_filter.1 hrowmem).2
      rw [hd]
      refine ⟨?_, ?_, rfl, ?_⟩
      · intro n hn hne
        refine List.mem_filter.2 ⟨hn, ?_⟩
        simp [hne]
      · intro n hn
        exact List.mem_of_mem_filter hn
      · intro hnone
        exfalso
        simp only [Bool.and_eq_true, beq_iff_eq] at hrow2
        exact hnone row hrow1 ⟨hrow2.1, hrow2.2⟩
  · rcases hm : db.followUps.filter (fun f => f.id == targetId && f.userId == u.id)
        with _ | ⟨row, rest⟩
    · have hd : complete_followup (some u) targetId now db =
          (db, ⟨false, "No se encontró un follow-up con ese ID", none⟩) := by
        rw [complete_followup, hm]
      rw [hd]
      exact ⟨fun f hf _ => hf, rfl, rfl, fun _ => ⟨rfl, rfl, rfl⟩⟩
    · have hd : (complete_followup (some u) targetId now db).1 =
          { db with
              followUps := db.followUps.map fun f =>
                if f.id == targetId && f.userId == u.id then
                  { f with status := "completed", completedAt := some now }
                else f } := by
        rw [complete_followup, hm]
      have hrowmem : row ∈ db.followUps.filter
          (fun f => f.id == targetId && f.userId == u.id) := by
        rw [hm]
        exact List.mem_cons_self _ _
      have hrow1 : row ∈ db.followUps := (List.mem_filter.1 hrowmem).1
      have hrow2 : (row.id == targetId && row.userId == u.id) = true :=
        (List.mem_filter.1 hrowmem).2
      rw [hd]
      refine ⟨?_, rfl, by simp, ?_⟩
      · intro f hf hne
        refine List.mem_map.2 ⟨f, hf, ?_⟩
        rw [if_neg]
        simp [hne]
      · intro hnone
        exfalso
        simp only [Bool.and_eq_true, beq_iff_eq] at hrow2
        exact hnone row hrow1 ⟨hrow2.1, hrow2.2⟩

/-- C5 witness: with two distinct identities, a valid id belonging to the
other user yields the structured failure and an untouched store. -/
theorem c5_ownership_filter_witness :
    (delete_note (some ⟨2, "B"⟩) 1 ⟨[⟨1, 1, "n", "t"⟩], []⟩).1 =
      ⟨[⟨1, 1, "n", "t"⟩], []⟩ ∧
    (delete_note (some ⟨2, "B"⟩) 1 ⟨[⟨1, 1, "n", "t"⟩], []⟩).2.success = false ∧
    (complete_followup (some ⟨2, "B"⟩) 7 "t1"
        ⟨[], [⟨7, 1, "f", none, none, "pending", "t", none⟩]⟩).2.success = false :=
  ⟨((c5_ownership_filter ⟨2, "B"⟩ 1 "t1" ⟨[⟨1, 1, "n", "t"⟩], []⟩).1.2.2.2
      (by decide)).1,
   ((c5_ownership_filter ⟨2, "B"⟩ 1 "t1" ⟨[⟨1, 1, "n", "t"⟩], []⟩).1.2.2.2
      (by decide)).2.1,
   ((c5_ownership_filter ⟨2, "B"⟩ 7 "t1"
      ⟨[], [⟨7, 1, "f", none, none, "pending", "t", none⟩]⟩).2.2.2.2
      (by decide)).2.1⟩

/-- C4: when the raw input fails the tool's schema validation,
`invokeTool` emits exactly one descriptive `error` event, records a
bookkeeping history entry, and returns no outcome — the execute-call log
(the spy on the backing store: every database operation of a tool lives
inside its `execute`) is unchanged, so the tool performs zero write
operations. -/
theorem c4_validation_blocks_side_effects (env : Env) (st : TurnState)
    (n : String) (raw : Option JsonValue) (m : String)
    (hn : n ∈ TOOL_NAMES)
    (hp : schemaParse n (normalizeRawInput raw) = .error m) :
    invokeTool env st (some n) raw =
      ([Event.error ("Input inválido para " ++ n ++ ": " ++ m)],
       pushHistory st ("TOOL_INPUT_ERROR " ++ n ++ ": " ++ m), none) ∧
    (invokeTool env st (some n) raw).2.1.execLog = st.execLog ∧
    (invokeTool env st (some n) raw).2.1.session.authenticatedUser =
      st.session.authenticatedUser := by
  have hd : invokeTool env st (some n) raw =
      ([Event.error ("Input inválido para " ++ n ++ ": " ++ m)],
       pushHistory st ("TOOL_INPUT_ERROR " ++ n ++ ": " ++ m), none) := by
    rw [invokeTool]
    dsimp only
    rw [if_pos hn, hp]
  exact ⟨hd, by rw [hd]; rfl, by rw [hd]; rfl⟩

/-- C4 witness: `delete_note` with an empty input payload is rejected and
leaves the spy log empty. -/
theorem c4_validation_blocks_side_effects_witness :
    invokeTool
        ⟨fun _ _ => .error "no llm", fun _ _ => .ok .null, fun _ => ""⟩
        ⟨⟨"c", "t0", [], none⟩, 0, [], [], 0⟩ (some "delete_note") (some (.obj [])) =
      ([Event.error ("Input inválido para " ++ "delete_note" ++ ": " ++
          "noteId: se esperaba número")],
       pushHistory ⟨⟨"c", "t0", [], none⟩, 0, [], [], 0⟩
         ("TOOL_INPUT_ERROR " ++ "delete_note" ++ ": " ++ "noteId: se esperaba número"),
       none) :=
  (c4_validation_blocks_side_effects
    ⟨fun _ _ => .error "no llm", fun _ _ => .ok .null, fun _ => ""⟩
    ⟨⟨"c", "t0", [], none⟩, 0, [], [], 0⟩ "delete_note" (some (.obj []))
    "noteId: se esperaba número" (by decide) rfl).1

end Laburen

namespace Laburen

/-! ## Trace lemmas for the orchestration model -/

theorem toolUnknown_ne_iterLimit (x : String) :
    ("Tool desconocida: " ++ x) ≠ iterLimitMsg :=
  ne_of_head (c := 'T') (d := 'E') rfl rfl (by decide)

theorem toolInput_ne_iterLimit (x y : String) :
    ("Input inválido para " ++ x ++ ": " ++ y) ≠ iterLimitMsg :=
  ne_of_head (c := 'I') (d := 'E') rfl rfl (by decide)

/-- Every event emitted by `invokeTool` is benign: tool telemetry or a
trace-level error, never part of a streamed reply and never the
iteration-limit error. -/
theorem invokeTool_events_benign (env : Env) (st : TurnState)
    (tn : Option String) (raw : Option JsonValue) :
    ∀ e ∈ (invokeTool env st tn raw).1, benign e = true := by
  intro e he
  rcases tn with _ | n
  · rw [invokeTool] at he
    simp only [List.mem_singleton] at he
    subst he
    decide
  · rw [invokeTool] at he
    dsimp only at he
    by_cases hmem : n ∈ TOOL_NAMES
    · rw [if_pos hmem] at he
      rcases hsp : schemaParse n (normalizeRawInput raw) with m | parsed <;>
        rw [hsp] at he
      · simp only [List.mem_singleton] at he
        subst he
        simp [benign, isReplyEvent, isIterLimitError, toolInput_ne_iterLimit n m]
      · dsimp only at he
        rcases hex : env.exec n parsed with m2 | result <;> rw [hex] at he
        · simp only [List.mem_cons, List.not_mem_nil, or_false] at he
          rcases he with rfl | rfl <;> rfl
        · dsimp only at he
          by_cases hv : (decide (n = "verify_passcode") && !resultIsFailure result) = true
          · rw [if_pos hv] at he
            simp only [List.mem_cons, List.not_mem_nil, or_false] at he
            rcases he with rfl | rfl | rfl <;> rfl
          · rw [if_neg hv] at he
            simp only [List.mem_cons, List.not_mem_nil, or_false] at he
            rcases he with rfl | rfl <;> rfl
    · rw [if_neg hmem] at he
      simp only [List.mem_singleton] at he
      subst he
      simp [benign, isReplyEvent, isIterLimitError, toolUnknown_ne_iterLimit n]

/-- `invokeTool` never touches the iteration counter or the LLM request
log. -/
theorem invokeTool_iters (env : Env) (st : TurnState) (tn : Option String)
    (raw : Option JsonValue) :
    (invokeTool env st tn raw).2.1.iters = st.iters ∧
    (invokeTool env st tn raw).2.1.llmLog = st.llmLog := by
  rcases tn with _ | n
  · rw [invokeTool]
    exact ⟨rfl, rfl⟩
  · rw [invokeTool]
    dsimp only
    by_cases hmem : n ∈ TOOL_NAMES
    · rw [if_pos hmem]
      rcases hsp : schemaParse n (normalizeRawInput raw) with m | parsed
      · exact ⟨rfl, rfl⟩
      · dsimp only
        rcases hex : env.exec n parsed with m2 | result
        · exact ⟨rfl, rfl⟩
        · dsimp only
          by_cases hv : (decide (n = "verify_passcode") && !resultIsFailure result) = true
          · rw [if_pos hv]
            exact ⟨rfl, rfl⟩
          · rw [if_neg hv]
            exact ⟨rfl, rfl⟩
    · rw [if_neg hmem]
      exact ⟨rfl, rfl⟩

/-- A fast-path step preserves the iteration counter, and when it falls
through every event it emitted is benign. -/
theorem fastPathStep_ok (env : Env) (name : String) (input : Option JsonValue)
    (st : TurnState) :
    (fastPathStep env name input st).2.1.iters = st.iters ∧
    ((fastPathStep env name input st).2.2 = false →
      ∀ e ∈ (fastPathStep env name input st).1, benign e = true) := by
  rcases input with _ | inp
  · exact ⟨rfl, by intro _ e he; cases he⟩
  · have hIt := invokeTool_iters env st (some name) (some inp)
    have hBe := invokeTool_events_benign env st (some name) (some inp)
    rw [fastPathStep]
    rcases hi : invokeTool env st (some name) (some inp) with ⟨evs, st', out⟩
    rw [hi] at hIt hBe
    rcases out with _ | o
    · exact ⟨hIt.1, fun _ e he => hBe e he⟩
    · dsimp only
      by_cases hs : o.status = true
    
      · rw [if_pos hs]
        rcases hr : respondToolSuccess env st' o with ⟨evs2, st2⟩
        have h2 : st2.iters = st'.iters := by
          have : (respondToolSuccess env st' o).2.iters = st'.iters := rfl
          rw [hr] at this
          exact this
        exact ⟨h2.trans hIt.1, fun h => absurd h (by simp)⟩
      · rw [if_neg hs]
        rcases hr : respondToolError st' o with ⟨evs2, st2⟩
        have h2 : st2.iters = st'.iters := by
          have : (respondToolError st' o).2.iters = st'.iters := rfl
          rw [hr] at this
          exact this
        exact ⟨h2.trans hIt.1, fun h => absurd h (by simp)⟩

/-- The credential fast path preserves the iteration counter and emits
only benign events when it falls through. -/
theorem authFastPath_ok (env : Env) (msg : String) (st : TurnState) :
    (authFastPath env msg st).2.1.iters = st.iters ∧
    ((authFastPath env msg st).2.2 = false →
      ∀ e ∈ (authFastPath env msg st).1, benign e = true) := by
  rw [authFastPath]
  rcases st.session.authenticatedUser with _ | u
  · rcases extractPasscodeIntent msg with _ | creds
    · exact ⟨rfl, by intro _ e he; cases he⟩
    · dsimp only
      have hIt := invokeTool_iters env st (some "verify_passcode")
        (some (.obj [("name", .str creds.name), ("passcode", .str creds.passcode)]))
      have hBe := invokeTool_events_benign env st (some "verify_passcode")
        (some (.obj [("name", .str creds.name), ("passcode", .str creds.passcode)]))
      rcases hi : invokeTool env st (some "verify_passcode")
          (some (.obj [("name", .str creds.name), ("passcode", .str creds.passcode)]))
        with ⟨evs, st', out⟩
      rw [hi] at hIt hBe
      rcases out with _ | o
      · exact ⟨hIt.1, fun _ e he => hBe e he⟩
      · dsimp only
        by_cases hs : o.status = true
        · rw [if_pos hs]
          rcases hr : respondToolSuccess env st' o with ⟨evs2, st2⟩
          have h2 : st2.iters = st'.iters := by
            have : (respondToolSuccess env st' o).2.iters = st'.iters := rfl
            rw [hr] at this
            exact this
          exact ⟨h2.trans hIt.1, fun h => absurd h (by simp)⟩
        · rw [if_neg hs]
          rcases hr : respondToolError st' o with ⟨evs2, st2⟩
          have h2 : st2.iters = st'.iters := by
            have : (respondToolError st' o).2.iters = st'.iters := rfl
            rw [hr] at this
            exact this
          exact ⟨h2.trans hIt.1, fun h => absurd h (by simp)⟩
  · exact ⟨rfl, by intro _ e he; cases he⟩

/-- Step sequencing preserves the two fast-path invariants. -/
theorem andThen_ok {st : TurnState} {r : List Event × TurnState × Bool}
    {f : TurnState → List Event × TurnState × Bool}
    (hr : r.2.1.iters = st.iters ∧
      (r.2.2 = false → ∀ e ∈ r.1, benign e = true))
    (hf : ∀ st', (f st').2.1.iters = st'.iters ∧
      ((f st').2.2 = false → ∀ e ∈ (f st').1, benign e = true)) :
    (andThen r f).2.1.iters = st.iters ∧
    ((andThen r f).2.2 = false →
      ∀ e ∈ (andThen r f).1, benign e = true) := by
  rcases r with ⟨evs, st1, b⟩
  cases b
  · rw [andThen]
    rcases hf1 : f st1 with ⟨evs2, st2, t⟩
    have h2 := hf st1
    rw [hf1] at h2
    dsimp only
    constructor
    · exact h2.1.trans hr.1
    · intro ht e he
      rcases List.mem_append.1 he with h | h
      · exact hr.2 rfl e h
      · exact h2.2 ht e h
  · exact ⟨hr.1, fun h => absurd h (by simp [andThen])⟩

/-- The authenticated fast paths preserve the two invariants. -/
theorem authedFastPaths_ok (env : Env) (intents : OtherIntents) (st : TurnState) :
    (authedFastPaths env intents st).2.1.iters = st.iters ∧
    ((authedFastPaths env intents st).2.2 = false →
      ∀ e ∈ (authedFastPaths env intents st).1, benign e = true) := by
  rw [authedFastPaths]
  rcases st.session.authenticatedUser with _ | u
  · exact ⟨rfl, by intro _ e he; cases he⟩
  · exact andThen_ok (fastPathStep_ok env _ _ st) fun st1 =>
      andThen_ok (fastPathStep_ok env _ _ st1) fun st2 =>
        andThen_ok (fastPathStep_ok env _ _ st2) fun st3 =>
          andThen_ok (fastPathStep_ok env _ _ st3) fun st4 =>
            andThen_ok (fastPathStep_ok env _ _ st4) fun st5 =>
              andThen_ok (fastPathStep_ok env _ _ st5) fun st6 =>
                fastPathStep_ok env _ _ st6

/-- All pre-loop phases preserve the two invariants. -/
theorem phases_ok (env : Env) (msg : String) (intents : OtherIntents)
    (st : TurnState) :
    (phases env msg intents st).2.1.iters = st.iters ∧
    ((phases env msg intents st).2.2 = false →
      ∀ e ∈ (phases env msg intents st).1, benign e = true) := by
  rw [phases]
  exact andThen_ok (authFastPath_ok env msg st) fun st1 =>
    andThen_ok (authedFastPaths_ok env intents st1) fun st2 =>
      fastPathStep_ok env _ _ st2

end Laburen

namespace Laburen

theorem benign_no_reply {e : Event} (h : benign e = true) :
    isReplyEvent e = false := by
  rw [benign, Bool.and_eq_true, Bool.not_eq_true', Bool.not_eq_true'] at h
  exact h.1

theorem benign_no_iterLimit {e : Event} (h : benign e = true) :
    isIterLimitError e = false := by
  rw [benign, Bool.and_eq_true, Bool.not_eq_true', Bool.not_eq_true'] at h
  exact h.2

/-- `planBranch` preserves the iteration counter and, when it lets the
loop continue, emits only benign events. -/
theorem planBranch_ok (env : Env) (st2 : TurnState) (plan : Plan) :
    (planBranch env st2 plan).2.1.iters = st2.iters ∧
    ((planBranch env st2 plan).2.2 = .again →
      ∀ e ∈ (planBranch env st2 plan).1, benign e = true) := by
  rw [planBranch.eq_def]
  dsimp only
  rcases plan with ⟨th, tref, conf⟩ | ⟨th, text, conf⟩
  · dsimp only
    have hIt := invokeTool_iters env
      { st2 with nextId := st2.nextId + 1 } (some tref.name) tref.input
    have hBe := invokeTool_events_benign env
      { st2 with nextId := st2.nextId + 1 } (some tref.name) tref.input
    rcases hi : invokeTool env { st2 with nextId := st2.nextId + 1 }
        (some tref.name) tref.input with ⟨evsT, st4, out⟩
    rw [hi] at hIt hBe
    rcases out with _ | o
    · refine ⟨hIt.1, fun _ e he => ?_⟩
      rcases List.mem_cons.1 he with rfl | h
      · rfl
      · exact hBe e h
    · dsimp only
      by_cases hs : o.status = true
      · rw [if_pos hs]
        rcases hr : respondToolSuccess env st4 o with ⟨evs2, st5⟩
        have h5 : st5.iters = st4.iters := by
          have : (respondToolSuccess env st4 o).2.iters = st4.iters := rfl
          rw [hr] at this
          exact this
        exact ⟨h5.trans hIt.1, fun h => IterOut.noConfusion h⟩
      · rw [if_neg hs]
        rcases hr : respondToolError st4 o with ⟨evs2, st5⟩
        have h5 : st5.iters = st4.iters := by
          have : (respondToolError st4 o).2.iters = st4.iters := rfl
          rw [hr] at this
          exact this
        exact ⟨h5.trans hIt.1, fun h => IterOut.noConfusion h⟩
  · exact ⟨rfl, fun h => IterOut.noConfusion h⟩

/-- One loop iteration increments the iteration counter by exactly one
and, when it continues, emits only benign events. -/
theorem llmIter_ok (env : Env) (st0 : TurnState) :
    (llmIter env st0).2.1.iters = st0.iters + 1 ∧
    ((llmIter env st0).2.2 = .again →
      ∀ e ∈ (llmIter env st0).1, benign e = true) := by
  rw [llmIter.eq_def]
  dsimp only
  split
  · exact ⟨rfl, fun h => IterOut.noConfusion h⟩
  · split
    · exact planBranch_ok env _ _
    · split
      · exact ⟨rfl, fun h => IterOut.noConfusion h⟩
      · exact planBranch_ok env _ _

/-- The bounded loop performs at most `fuel` iterations; exhaustion means
exactly `fuel` iterations all of whose events are benign. -/
theorem llmLoop_ok (env : Env) (fuel : Nat) (st : TurnState) :
    (llmLoop env fuel st).2.1.iters ≤ st.iters + fuel ∧
    ((llmLoop env fuel st).2.2 = .exhausted →
      (llmLoop env fuel st).2.1.iters = st.iters + fuel ∧
      ∀ e ∈ (llmLoop env fuel st).1, benign e = true) := by
  induction fuel generalizing st with
  | zero =>
    exact ⟨Nat.le_refl _, fun _ => ⟨rfl, by intro e he; cases he⟩⟩
  | succ fuel ih =>
    rw [llmLoop]
    have hI := llmIter_ok env st
    rcases hit : llmIter env st with ⟨evs, st', o⟩
    rw [hit] at hI
    rcases o with _ | e | _
    · dsimp only
      have h1 : st'.iters = st.iters + 1 := hI.1
      exact ⟨by omega, fun h => LoopOut.noConfusion h⟩
    · dsimp only
      have h1 : st'.iters = st.iters + 1 := hI.1
      exact ⟨by omega, fun h => LoopOut.noConfusion h⟩
    · have hL := ih st'
      rcases hl : llmLoop env fuel st' with ⟨evs2, st2, r⟩
      rw [hl] at hL
      dsimp only
      rw [hl]
      dsimp only
      have h1 : st'.iters = st.iters + 1 := hI.1
      have h2 : st2.iters ≤ st'.iters + fuel := hL.1
      constructor
      · omega
      · intro hr
        have hx := hL.2 hr
        have h3 : st2.iters = st'.iters + fuel := hx.1
        refine ⟨by omega, fun e he => ?_⟩
        rcases List.mem_append.1 he with h | h
        · exact hI.2 rfl e h
        · exact hx.2 e h

end Laburen

namespace Laburen

/-- C1: the LLM planning loop runs at most `maxIters` iterations, where
`maxIters` is the configured `MAX_TOOL_ITERATIONS` clamped into `1..10`
and defaulting to `4` when unset; every turn that exhausts the cap
without a terminal step emits the terminal iteration-limit `error` event
exactly once, as the last event of the turn, and emits no
`assistant_message`/`token`/`assistant_done` event at all. -/
theorem c1_iteration_cap (cfg : Option Int) (env : Env) (msg : String)
    (intents : OtherIntents) (session0 : Session) (n0 : Nat) :
    (1 ≤ maxIters cfg ∧ maxIters cfg ≤ 10 ∧ maxIters none = 4 ∧
      ∀ n : Int, 1 ≤ n → n ≤ 10 → maxIters (some n) = n) ∧
    (runAgentModel cfg env msg intents session0 n0).2.1.iters ≤
      (maxIters cfg).toNat ∧
    ((runAgentModel cfg env msg intents session0 n0).2.2 = .errorEnded →
      (runAgentModel cfg env msg intents session0 n0).2.1.iters =
        (maxIters cfg).toNat ∧
      (runAgentModel cfg env msg intents session0 n0).1.countP isIterLimitError = 1 ∧
      (runAgentModel cfg env msg intents session0 n0).1.getLast? =
        some (Event.error iterLimitMsg) ∧
      ∀ e ∈ (runAgentModel cfg env msg intents session0 n0).1,
        isReplyEvent e = false) := by
  have hclamp : 1 ≤ maxIters cfg ∧ maxIters cfg ≤ 10 ∧ maxIters none = 4 ∧
      ∀ n : Int, 1 ≤ n → n ≤ 10 → maxIters (some n) = n := by
    refine ⟨?_, ?_, by decide, ?_⟩
    · rw [maxIters]
      omega
    · rw [maxIters]
      omega
    · intro n h1 h2
      rw [maxIters]
      simp only [Option.getD_some]
      omega
  have main : (runAgentModel cfg env msg intents session0 n0).2.1.iters ≤
      (maxIters cfg).toNat ∧
      ((runAgentModel cfg env msg intents session0 n0).2.2 = .errorEnded →
        (runAgentModel cfg env msg intents session0 n0).2.1.iters =
          (maxIters cfg).toNat ∧
        (runAgentModel cfg env msg intents session0 n0).1.countP isIterLimitError = 1 ∧
        (runAgentModel cfg env msg intents session0 n0).1.getLast? =
          some (Event.error iterLimitMsg) ∧
        ∀ e ∈ (runAgentModel cfg env msg intents session0 n0).1,
          isReplyEvent e = false) := by
    rw [runAgentModel.eq_def]
    dsimp only
    have hP := phases_ok env msg intents
      ⟨{ session0 with history := session0.history ++ [⟨.user, msg⟩] }, n0, [], [], 0⟩
    rcases hp : phases env msg intents
        ⟨{ session0 with history := session0.history ++ [⟨.user, msg⟩] }, n0, [], [], 0⟩
      with ⟨evsP, stP, b⟩
    rw [hp] at hP
    have hPiters : stP.iters = 0 := hP.1
    cases b
    · dsimp only
      have hL := llmLoop_ok env (maxIters cfg).toNat stP
      rcases hl : llmLoop env (maxIters cfg).toNat stP with ⟨evsL, stL, r⟩
      rw [hl] at hL
      have hLle : stL.iters ≤ stP.iters + (maxIters cfg).toNat := hL.1
      rcases r with _ | e | _
      · dsimp only
        exact ⟨by omega, fun h => TurnOut.noConfusion h⟩
      · dsimp only
        exact ⟨by omega, fun h => TurnOut.noConfusion h⟩
      · have hx := hL.2 rfl
        have hEq : stL.iters = stP.iters + (maxIters cfg).toNat := hx.1
        have benL : ∀ e ∈ evsL, benign e = true := hx.2
        have benP : ∀ e ∈ evsP, benign e = true := hP.2 rfl
        dsimp only
        refine ⟨by omega, fun _ => ⟨by omega, ?_, ?_, ?_⟩⟩
        · rw [List.countP_append, List.countP_append]
          have z1 : evsP.countP isIterLimitError = 0 :=
            List.countP_eq_zero.2 fun e he => by
              simp [benign_no_iterLimit (benP e he)]
          have z2 : evsL.countP isIterLimitError = 0 :=
            List.countP_eq_zero.2 fun e he => by
              simp [benign_no_iterLimit (benL e he)]
          rw [z1, z2]
          rfl
        · rw [List.getLast?_concat]
        · intro e he
          rcases List.mem_append.1 he with h | h
          · rcases List.mem_append.1 h with h' | h'
            · exact benign_no_reply (benP e h')
            · exact benign_no_reply (benL e h')
          · rw [List.mem_singleton] at h
            subst h
            rfl
    · dsimp only
      exact ⟨by omega, fun h => TurnOut.noConfusion h⟩
  exact ⟨hclamp, main.1, main.2⟩

/-- C1 witness: with `MAX_TOOL_ITERATIONS = 1` and a provider that always
returns a plan naming `delete_note` with no input, the only iteration
fails schema validation, the cap is exhausted, and the turn ends with the
single terminal iteration-limit error and no reply events. -/
theorem c1_iteration_cap_witness :
    (runAgentModel (some 1)
        ⟨fun _ _ => .ok "\x7b\"action\":\"tool\",\"tool\":\x7b\"name\":\"delete_note\"\x7d\x7d",
         fun _ _ => .ok .null, fun _ => ""⟩
        "hola" .noneAll ⟨"c1", "t0", [], none⟩ 0).2.2 = .errorEnded ∧
    (runAgentModel (some 1)
        ⟨fun _ _ => .ok "\x7b\"action\":\"tool\",\"tool\":\x7b\"name\":\"delete_note\"\x7d\x7d",
         fun _ _ => .ok .null, fun _ => ""⟩
        "hola" .noneAll ⟨"c1", "t0", [], none⟩ 0).2.1.iters = (maxIters (some 1)).toNat ∧
    (runAgentModel (some 1)
        ⟨fun _ _ => .ok "\x7b\"action\":\"tool\",\"tool\":\x7b\"name\":\"delete_note\"\x7d\x7d",
         fun _ _ => .ok .null, fun _ => ""⟩
        "hola" .noneAll ⟨"c1", "t0", [], none⟩ 0).1.getLast? =
      some (Event.error iterLimitMsg) :=
  ⟨rfl,
   ((c1_iteration_cap (some 1)
      ⟨fun _ _ => .ok "\x7b\"action\":\"tool\",\"tool\":\x7b\"name\":\"delete_note\"\x7d\x7d",
       fun _ _ => .ok .null, fun _ => ""⟩
      "hola" .noneAll ⟨"c1", "t0", [], none⟩ 0).2.2 rfl).1,
   ((c1_iteration_cap (some 1)
      ⟨fun _ _ => .ok "\x7b\"action\":\"tool\",\"tool\":\x7b\"name\":\"delete_note\"\x7d\x7d",
       fun _ _ => .ok .null, fun _ => ""⟩
      "hola" .noneAll ⟨"c1", "t0", [], none⟩ 0).2.2 rfl).2.2.1⟩

end Laburen

namespace Laburen

theorem length_pos_of_ne_empty {s : String} (h : s ≠ "") : s.length ≥ 1 := by
  rcases s with ⟨cs⟩
  cases cs with
  | nil => exact absurd rfl h
  | cons c rest => exact Nat.succ_le_succ (Nat.zero_le _)

theorem zReqStringMin1_passcode (nm pc : String) (hp : pc.length ≥ 1) :
    zReqStringMin1 (.obj [("name", .str nm), ("passcode", .str pc)]) "passcode" =
      .ok pc := by
  have e2 : zReqStringMin1 (.obj [("name", .str nm), ("passcode", .str pc)]) "passcode" =
      if pc.length ≥ 1 then Except.ok pc
      else Except.error ("passcode" ++ ": mínimo 1 carácter") := rfl
  rw [e2, if_pos hp]

/-- The credential fast path's tool input always passes
`verifyPasscodeSchema` (the extractor guarantees a non-empty passcode). -/
theorem verify_passcode_parse_ok (nm pc : String) (hp : pc.length ≥ 1) :
    schemaParse "verify_passcode"
        (normalizeRawInput (some (.obj [("name", .str nm), ("passcode", .str pc)]))) =
      .ok (.obj [("name", .str nm), ("passcode", .str pc)]) := by
  have e1 : schemaParse "verify_passcode"
      (normalizeRawInput (some (.obj [("name", .str nm), ("passcode", .str pc)]))) =
      (zReqStringMin1 (.obj [("name", .str nm), ("passcode", .str pc)]) "passcode").bind
        (fun passcode =>
          Except.ok (.obj [("name", .str nm), ("passcode", .str passcode)])) := rfl
  rw [e1, zReqStringMin1_passcode nm pc hp]
  rfl

/-- `invokeTool` on `verify_passcode` with a structured failure result:
the exact events, state and outcome. -/
theorem invokeTool_verify_structured_failure (env : Env) (st : TurnState)
    (nm pc : String) (res : JsonValue) (hp : pc.length ≥ 1)
    (hexec : env.exec "verify_passcode"
      (.obj [("name", .str nm), ("passcode", .str pc)]) = .ok res)
    (hfail : resultIsFailure res = true) :
    invokeTool env st (some "verify_passcode")
        (some (.obj [("name", .str nm), ("passcode", .str pc)])) =
      ([Event.tool st.nextId "verify_passcode"
          (.obj [("name", .str nm), ("passcode", .str pc)]),
        Event.toolResult st.nextId "verify_passcode"
          (.obj [("name", .str nm), ("passcode", .str pc)]) (some res) false
          (some ((resultMessage res).getD "Error desconocido"))],
       pushHistory (pushHistory
         { st with nextId := st.nextId + 1,
                   execLog := st.execLog ++
                     [("verify_passcode", .obj [("name", .str nm), ("passcode", .str pc)])] }
         ("TOOL_CALL " ++ "verify_passcode" ++ ": " ++
           jsonStringify (.obj [("name", .str nm), ("passcode", .str pc)])))
         ("TOOL_RESULT " ++ "verify_passcode" ++ ": " ++ jsonStringify res),
       some ⟨"verify_passcode", false, .obj [("name", .str nm), ("passcode", .str pc)], res⟩) := by
  rw [invokeTool]
  dsimp only
  rw [if_pos (by decide : "verify_passcode" ∈ TOOL_NAMES)]
  rw [verify_passcode_parse_ok nm pc hp]
  dsimp only
  rw [hexec]
  dsimp only
  simp only [hfail, Bool.not_true, Bool.and_false]
  rfl

end Laburen

namespace Laburen

/-- C2 counterexample: in an unauthenticated session where the
credential fast path matches ("Soy Carla, mi passcode es 123456") and the
authentication tool returns the structured failure
`{success:false, message:"Nombre o código inválido"}`, `runAgent` does
NOT fall through — the turn terminates at this step with a streamed
reply, the LLM loop is never entered (no completion request is logged)
and no further tool runs. -/
theorem c2_counterexample :
    (runAgentModel none
        ⟨fun _ _ => .error "no llm",
         fun _ _ => .ok (.obj [("success", .bool false),
           ("message", .str "Nombre o código inválido")]),
         fun _ => ""⟩
        "Soy Carla, mi passcode es 123456" .noneAll ⟨"c2", "t0", [], none⟩ 0).2.2 =
      .replied ∧
    (runAgentModel none
        ⟨fun _ _ => .error "no llm",
         fun _ _ => .ok (.obj [("success", .bool false),
           ("message", .str "Nombre o código inválido")]),
         fun _ => ""⟩
        "Soy Carla, mi passcode es 123456" .noneAll ⟨"c2", "t0", [], none⟩ 0).2.1.llmLog = [] ∧
    (runAgentModel none
        ⟨fun _ _ => .error "no llm",
         fun _ _ => .ok (.obj [("success", .bool false),
           ("message", .str "Nombre o código inválido")]),
         fun _ => ""⟩
        "Soy Carla, mi passcode es 123456" .noneAll ⟨"c2", "t0", [], none⟩ 0).2.1.execLog.length = 1 ∧
    (runAgentModel none
        ⟨fun _ _ => .error "no llm",
         fun _ _ => .ok (.obj [("success", .bool false),
           ("message", .str "Nombre o código inválido")]),
         fun _ => ""⟩
        "Soy Carla, mi passcode es 123456" .noneAll ⟨"c2", "t0", [], none⟩ 0).2.1.session.authenticatedUser = none :=
  ⟨rfl, rfl, rfl, rfl⟩

/-- C2 (amended): in an unauthenticated session, when the credential
fast path matches and the authentication tool returns a structured
failure, `runAgent` terminates the turn at this step — it emits the
`tool`/`tool_result` events, streams the failure message as the reply,
leaves the session unauthenticated, and never reaches the other fast
paths or the LLM loop.  Fall-through happens only when no credentials are
extracted or the invocation yields no outcome; a success also terminates
the turn here. -/
theorem c2_structured_failure_terminates (cfg : Option Int) (env : Env)
    (msg : String) (intents : OtherIntents) (session0 : Session) (n0 : Nat)
    (creds : Creds) (res : JsonValue)
    (hauth : session0.authenticatedUser = none)
    (hcreds : extractPasscodeIntent msg = some creds)
    (hexec : env.exec "verify_passcode"
      (.obj [("name", .str creds.name), ("passcode", .str creds.passcode)]) = .ok res)
    (hfail : resultIsFailure res = true) :
    (runAgentModel cfg env msg intents session0 n0).2.2 = .replied ∧
    (runAgentModel cfg env msg intents session0 n0).2.1.llmLog = [] ∧
    (runAgentModel cfg env msg intents session0 n0).2.1.execLog =
      [("verify_passcode",
        .obj [("name", .str creds.name), ("passcode", .str creds.passcode)])] ∧
    (runAgentModel cfg env msg intents session0 n0).2.1.session.authenticatedUser =
      none ∧
    (runAgentModel cfg env msg intents session0 n0).1 =
      Event.tool n0 "verify_passcode"
          (.obj [("name", .str creds.name), ("passcode", .str creds.passcode)]) ::
        Event.toolResult n0 "verify_passcode"
          (.obj [("name", .str creds.name), ("passcode", .str creds.passcode)])
          (some res) false (some ((resultMessage res).getD "Error desconocido")) ::
        emitStreamingText (n0 + 1)
          ((resultMessage res).getD "No se pudo ejecutar verify_passcode.") := by
  obtain ⟨-, hpcne⟩ := extractPasscodeIntent_nonempty msg creds hcreds
  have hp : creds.passcode.length ≥ 1 := length_pos_of_ne_empty hpcne
  rcases session0 with ⟨sid, screated, shist, sauth⟩
  dsimp only at hauth
  subst hauth
  have hInv := invokeTool_verify_structured_failure env
    ⟨⟨sid, screated, shist ++ [⟨.user, msg⟩], none⟩, n0, [], [], 0⟩
    creds.name creds.passcode res hp hexec hfail
  rw [runAgentModel.eq_def]
  dsimp only
  rw [phases.eq_def, authFastPath.eq_def]
  dsimp only
  rw [hcreds]
  dsimp only
  rw [hInv]
  dsimp only
  rw [respondToolError.eq_def]
  dsimp only [pushHistory]
  rw [andThen.eq_def]
  dsimp only
  exact ⟨rfl, rfl, rfl, rfl, rfl⟩

/-- C2 witness: the amended theorem at the concrete failing scenario. -/
theorem c2_structured_failure_terminates_witness :
    (runAgentModel none
        ⟨fun _ _ => .error "no llm",
         fun _ _ => .ok (.obj [("success", .bool false),
           ("message", .str "Nombre o código inválido")]),
         fun _ => ""⟩
        "Soy Carla, mi passcode es 123456" .noneAll ⟨"w2", "t0", [], none⟩ 0).2.2 =
      .replied ∧
    (runAgentModel none
        ⟨fun _ _ => .error "no llm",
         fun _ _ => .ok (.obj [("success", .bool false),
           ("message", .str "Nombre o código inválido")]),
         fun _ => ""⟩
        "Soy Carla, mi passcode es 123456" .noneAll ⟨"w2", "t0", [], none⟩ 0).2.1.llmLog = [] :=
  ⟨(c2_structured_failure_terminates none
      ⟨fun _ _ => .error "no llm",
       fun _ _ => .ok (.obj [("success", .bool false),
         ("message", .str "Nombre o código inválido")]),
       fun _ => ""⟩
      "Soy Carla, mi passcode es 123456" .noneAll ⟨"w2", "t0", [], none⟩ 0
      ⟨"Carla", "123456"⟩ (.obj [("success", .bool false),
        ("message", .str "Nombre o código inválido")])
      rfl (by decide) rfl rfl).1,
   (c2_structured_failure_terminates none
      ⟨fun _ _ => .error "no llm",
       fun _ _ => .ok (.obj [("success", .bool false),
         ("message", .str "Nombre o código inválido")]),
       fun _ => ""⟩
      "Soy Carla, mi passcode es 123456" .noneAll ⟨"w2", "t0", [], none⟩ 0
      ⟨"Carla", "123456"⟩ (.obj [("success", .bool false),
        ("message", .str "Nombre o código inválido")])
      rfl (by decide) rfl rfl).2.1⟩

end Laburen

namespace Laburen

theorem emitStreamingText_no_error (id : Nat) (text : String) :
    ∀ e ∈ emitStreamingText id text, isErrorEvent e = false := by
  intro e he
  rw [emitStreamingText, List.mem_cons] at he
  rcases he with rfl | he
  · rfl
  · rcases List.mem_append.1 he with h | h
    · obtain ⟨c, _, rfl⟩ := List.mem_map.1 h
      rfl
    · rw [List.mem_singleton] at h
      subst h
      rfl

/-- The first completion request a loop iteration issues from state `st`. -/
def firstRequest (st : TurnState) : LlmRequest :=
  ⟨BASE_PROMPT ++ "\n\n" ++ contextualSentence st.session.authenticatedUser,
   st.session.history, 0, 1024⟩

/-- The stricter retry request issued after a parse failure. -/
def retryRequest (st : TurnState) : LlmRequest :=
  ⟨BASE_PROMPT ++ retryPromptSuffix, st.session.history, 0, 512⟩

/-- With a message matching no fast path, the pre-loop phases are a
no-op. -/
theorem phases_no_intents (env : Env) (msg : String) (st : TurnState)
    (hcreds : extractPasscodeIntent msg = none) :
    phases env msg .noneAll st = ([], st, false) := by
  rw [phases.eq_def, authFastPath.eq_def]
  rcases hau : st.session.authenticatedUser with _ | u
  · rw [hcreds]
    dsimp only [andThen]
    rw [authedFastPaths.eq_def, hau]
    rfl
  · dsimp only [andThen]
    rw [authedFastPaths.eq_def, hau]
    rfl

/-- One loop iteration against a provider whose completions always
succeed but never parse: two completion calls, then the fallback reply. -/
theorem llmIter_unparseable (env : Env) (st : TurnState)
    (hllmE : ∀ k req e, env.llm k req ≠ .error e)
    (hllmP : ∀ k req s, env.llm k req = .ok s → parsePlan s = none) :
    llmIter env st =
      (Event.thought st.nextId ("Fallback: " ++ "Modelo devolvió JSON inválido") ::
         emitStreamingText (st.nextId + 1)
           (fallbackRespText st.session.authenticatedUser.isSome),
       pushHistory
         { st with
             nextId := st.nextId + 1 + 1
             llmLog := st.llmLog ++ [firstRequest st] ++ [retryRequest st]
             iters := st.iters + 1 }
         (fallbackRespText st.session.authenticatedUser.isSome),
       .done) := by
  rw [llmIter.eq_def]
  dsimp only
  split
  · next e heq => exact absurd heq (hllmE _ _ _)
  · next s0 heq =>
    rw [hllmP _ _ _ heq]
    try dsimp only
    split
    · next e heq2 => exact absurd heq2 (hllmE _ _ _)
    · next s1 heq2 =>
      rw [hllmP _ _ _ heq2]
      try dsimp only
      rw [planBranch.eq_def]
      dsimp only [fallbackPlan, Plan.thought]
      rfl

/-- The bounded loop against a provider whose completions always succeed
but never parse: one iteration, two completion calls (the second with the
stricter system instruction and 512 max tokens), the fallback text
streamed, and a reply as outcome. -/
theorem llmLoop_unparseable (env : Env) (st : TurnState) (k : Nat)
    (hllmE : ∀ k req e, env.llm k req ≠ .error e)
    (hllmP : ∀ k req s, env.llm k req = .ok s → parsePlan s = none) :
    llmLoop env (k + 1) st =
      (Event.thought st.nextId ("Fallback: " ++ "Modelo devolvió JSON inválido") ::
         emitStreamingText (st.nextId + 1)
           (fallbackRespText st.session.authenticatedUser.isSome),
       pushHistory
         { st with
             nextId := st.nextId + 1 + 1
             llmLog := st.llmLog ++ [firstRequest st] ++ [retryRequest st]
             iters := st.iters + 1 }
         (fallbackRespText st.session.authenticatedUser.isSome),
       .replied) := by
  rw [llmLoop, llmIter_unparseable env st hllmE hllmP]

end Laburen

namespace Laburen

/-- C6: within one iteration, a first completion that fails to parse
triggers exactly one retry with the stricter JSON-only system instruction
(512 max tokens); when the retry also fails to parse, the deterministic
fallback respond-Plan is substituted and streamed and the turn terminates
— with a provider that always returns unparseable text, exactly 2
completion calls are made in total, one loop iteration runs, and the turn
ends without any `error` event. -/
theorem c6_parse_retry_fallback (cfg : Option Int) (env : Env) (msg : String)
    (session0 : Session) (n0 : Nat)
    (hcreds : extractPasscodeIntent msg = none)
    (hllm : ∀ k req, ∃ s, env.llm k req = .ok s ∧ parsePlan s = none) :
    (runAgentModel cfg env msg .noneAll session0 n0).2.2 = .replied ∧
    (runAgentModel cfg env msg .noneAll session0 n0).2.1.llmLog.length = 2 ∧
    (runAgentModel cfg env msg .noneAll session0 n0).2.1.iters = 1 ∧
    ((runAgentModel cfg env msg .noneAll session0 n0).2.1.llmLog.getLast?).map
        LlmRequest.system = some (BASE_PROMPT ++ retryPromptSuffix) ∧
    ((runAgentModel cfg env msg .noneAll session0 n0).2.1.llmLog.getLast?).map
        LlmRequest.maxTokens = some 512 ∧
    (runAgentModel cfg env msg .noneAll session0 n0).1 =
      Event.thought n0 ("Fallback: " ++ "Modelo devolvió JSON inválido") ::
        emitStreamingText (n0 + 1)
          (fallbackRespText session0.authenticatedUser.isSome) ∧
    ∀ e ∈ (runAgentModel cfg env msg .noneAll session0 n0).1,
      isErrorEvent e = false := by
  have hllmE : ∀ k req e, env.llm k req ≠ .error e := by
    intro k req e h
    obtain ⟨s, hs, -⟩ := hllm k req
    rw [h] at hs
    exact Except.noConfusion hs
  have hllmP : ∀ k req s, env.llm k req = .ok s → parsePlan s = none := by
    intro k req s h
    obtain ⟨s', hs, hp⟩ := hllm k req
    rw [h] at hs
    injection hs with h2
    subst h2
    exact hp
  obtain ⟨k, hk⟩ : ∃ k, (maxIters cfg).toNat = k + 1 := by
    have h1 : 1 ≤ maxIters cfg := by
      rw [maxIters]
      omega
    exact ⟨(maxIters cfg).toNat - 1, by omega⟩
  have hph := phases_no_intents env msg
    ⟨{ session0 with history := session0.history ++ [⟨.user, msg⟩] }, n0, [], [], 0⟩ hcreds
  have hLoop := llmLoop_unparseable env
    ⟨{ session0 with history := session0.history ++ [⟨.user, msg⟩] }, n0, [], [], 0⟩
    k hllmE hllmP
  rw [runAgentModel.eq_def]
  dsimp only
  rw [hph]
  dsimp only
  rw [hk, hLoop]
  dsimp only
  refine ⟨rfl, rfl, rfl, rfl, rfl, rfl, ?_⟩
  intro e he
  simp only [List.nil_append, List.mem_cons] at he
  rcases he with rfl | he
  · rfl
  · exact emitStreamingText_no_error _ _ e he

/-- C6 witness: the concrete always-unparseable provider makes exactly
two completion calls and streams the fallback reply. -/
theorem c6_parse_retry_fallback_witness :
    (runAgentModel none
        ⟨fun _ _ => .ok "sin json", fun _ _ => .ok .null, fun _ => ""⟩
        "hola" .noneAll ⟨"c6", "t0", [], none⟩ 0).2.2 = .replied ∧
    (runAgentModel none
        ⟨fun _ _ => .ok "sin json", fun _ _ => .ok .null, fun _ => ""⟩
        "hola" .noneAll ⟨"c6", "t0", [], none⟩ 0).2.1.llmLog.length = 2 :=
  ⟨(c6_parse_retry_fallback none
      ⟨fun _ _ => .ok "sin json", fun _ _ => .ok .null, fun _ => ""⟩
      "hola" ⟨"c6", "t0", [], none⟩ 0 (by decide)
      (fun k req => ⟨"sin json", rfl, rfl⟩)).1,
   (c6_parse_retry_fallback none
      ⟨fun _ _ => .ok "sin json", fun _ _ => .ok .null, fun _ => ""⟩
      "hola" ⟨"c6", "t0", [], none⟩ 0 (by decide)
      (fun k req => ⟨"sin json", rfl, rfl⟩)).2.1⟩

end Laburen
